import Mathlib

/-!
Verification of the invoice validation pipeline (`src/agents/validator.py`,
class `ValidatorAgent`).

The Python code manipulates JSON-like dictionaries with dynamic typing,
so we shallow-embed its data as a JSON value type `JVal`.  Python `float`
values are modelled as exact rationals (`ℚ`); Python `int` and `float`
are merged into one numeric constructor (no claim distinguishes them).
Raised exceptions are modelled with `Except PyErr`.  The current date
(`datetime.now()`) is passed as an explicit parameter.  In-place mutation
of the caller's dictionary through the shallow `data.copy()` is modelled
by returning, next to the normalized record, the caller-visible state of
the input record after the call.
-/

/- Batteries marks rational arithmetic `@[irreducible]`, which blocks
`rfl`/`decide` evaluation of the pipeline at the concrete inputs used
by witnesses.  Restoring the default reducibility changes no
definition and no theorem; it only lets the elaborator unfold these
operations. -/
set_option allowUnsafeReducibility true
attribute [semireducible] Rat.mul Rat.add Rat.div Rat.sub Rat.neg Rat.inv

namespace InvoiceValidator

/-- A JSON-like Python value: `None`, booleans, numbers (int and float
merged, represented exactly as rationals), strings, lists and dicts
(association lists keyed by strings, first occurrence wins). -/
inductive JVal where
  | null : JVal
  | bool : Bool → JVal
  | num : ℚ → JVal
  | str : String → JVal
  | arr : List JVal → JVal
  | obj : List (String × JVal) → JVal
deriving Repr

mutual

/-- Decidable structural equality on `JVal` (hand-rolled: `deriving`
does not handle this nested inductive). -/
def JVal.decEq : (a b : JVal) → Decidable (a = b)
  | .null, .null => .isTrue rfl
  | .null, .bool _ => .isFalse (fun h => nomatch h)
  | .null, .num _ => .isFalse (fun h => nomatch h)
  | .null, .str _ => .isFalse (fun h => nomatch h)
  | .null, .arr _ => .isFalse (fun h => nomatch h)
  | .null, .obj _ => .isFalse (fun h => nomatch h)
  | .bool _, .null => .isFalse (fun h => nomatch h)
  | .bool x, .bool y =>
      if h : x = y then .isTrue (by rw [h])
      else .isFalse (by intro hh; injection hh with h2; exact h h2)
  | .bool _, .num _ => .isFalse (fun h => nomatch h)
  | .bool _, .str _ => .isFalse (fun h => nomatch h)
  | .bool _, .arr _ => .isFalse (fun h => nomatch h)
  | .bool _, .obj _ => .isFalse (fun h => nomatch h)
  | .num _, .null => .isFalse (fun h => nomatch h)
  | .num _, .bool _ => .isFalse (fun h => nomatch h)
  | .num x, .num y =>
      if h : x = y then .isTrue (by rw [h])
      else .isFalse (by intro hh; injection hh with h2; exact h h2)
  | .num _, .str _ => .isFalse (fun h => nomatch h)
  | .num _, .arr _ => .isFalse (fun h => nomatch h)
  | .num _, .obj _ => .isFalse (fun h => nomatch h)
  | .str _, .null => .isFalse (fun h => nomatch h)
  | .str _, .bool _ => .isFalse (fun h => nomatch h)
  | .str _, .num _ => .isFalse (fun h => nomatch h)
  | .str x, .str y =>
      if h : x = y then .isTrue (by rw [h])
      else .isFalse (by intro hh; injection hh with h2; exact h h2)
  | .str _, .arr _ => .isFalse (fun h => nomatch h)
  | .str _, .obj _ => .isFalse (fun h => nomatch h)
  | .arr _, .null => .isFalse (fun h => nomatch h)
  | .arr _, .bool _ => .isFalse (fun h => nomatch h)
  | .arr _, .num _ => .isFalse (fun h => nomatch h)
  | .arr _, .str _ => .isFalse (fun h => nomatch h)
  | .arr xs, .arr ys =>
      match JVal.decEqList xs ys with
      | .isTrue h => .isTrue (by rw [h])
      | .isFalse h => .isFalse (by intro hh; injection hh with h2; exact h h2)
  | .arr _, .obj _ => .isFalse (fun h => nomatch h)
  | .obj _, .null => .isFalse (fun h => nomatch h)
  | .obj _, .bool _ => .isFalse (fun h => nomatch h)
  | .obj _, .num _ => .isFalse (fun h => nomatch h)
  | .obj _, .str _ => .isFalse (fun h => nomatch h)
  | .obj _, .arr _ => .isFalse (fun h => nomatch h)
  | .obj xs, .obj ys =>
      match JVal.decEqObj xs ys with
      | .isTrue h => .isTrue (by rw [h])
      | .isFalse h => .isFalse (by intro hh; injection hh with h2; exact h h2)

/-- Decidable equality on lists of `JVal`. -/
def JVal.decEqList : (xs ys : List JVal) → Decidable (xs = ys)
  | [], [] => .isTrue rfl
  | [], _ :: _ => .isFalse (fun h => nomatch h)
  | _ :: _, [] => .isFalse (fun h => nomatch h)
  | x :: xs, y :: ys =>
      match JVal.decEq x y with
      | .isTrue h1 =>
          match JVal.decEqList xs ys with
          | .isTrue h2 => .isTrue (by rw [h1, h2])
          | .isFalse h2 => .isFalse (by intro hh; injection hh with ha hb; exact h2 hb)
      | .isFalse h1 => .isFalse (by intro hh; injection hh with ha hb; exact h1 ha)

/-- Decidable equality on string-keyed association lists of `JVal`. -/
def JVal.decEqObj : (xs ys : List (String × JVal)) → Decidable (xs = ys)
  | [], [] => .isTrue rfl
  | [], _ :: _ => .isFalse (fun h => nomatch h)
  | _ :: _, [] => .isFalse (fun h => nomatch h)
  | (k, v) :: xs, (l, w) :: ys =>
      if hk : k = l then
        match JVal.decEq v w with
        | .isTrue h1 =>
            match JVal.decEqObj xs ys with
            | .isTrue h2 => .isTrue (by rw [hk, h1, h2])
            | .isFalse h2 => .isFalse (by intro hh; injection hh with hp ht; exact h2 ht)
        | .isFalse h1 =>
            .isFalse (by intro hh; injection hh with hp ht; exact h1 (congrArg Prod.snd hp))
      else .isFalse (by intro hh; injection hh with hp ht; exact hk (congrArg Prod.fst hp))

end

instance : DecidableEq JVal := JVal.decEq

/-- A Python dict with string keys, as appearing at the top level of the
candidate invoice and of messages. -/
abbrev JObj := List (String × JVal)

namespace JObj

/-- Dictionary lookup (`d[k]` / `d.get(k)`): value at the first matching
key, if any. -/
def get? (d : JObj) (k : String) : Option JVal :=
  match d with
  | [] => none
  | (k0, v) :: rest => if k0 = k then some v else get? rest k

/-- `d.get(k, default)`. -/
def getD (d : JObj) (k : String) (dflt : JVal) : JVal :=
  (d.get? k).getD dflt

/-- `k in d`. -/
def hasKey (d : JObj) (k : String) : Bool :=
  (d.get? k).isSome

/-- `d[k] = v`: replace the value at the first occurrence of `k`,
keeping its position, or append a new binding when `k` is absent. -/
def set (d : JObj) (k : String) (v : JVal) : JObj :=
  match d with
  | [] => [(k, v)]
  | (k0, v0) :: rest =>
      if k0 = k then (k0, v) :: rest else (k0, v0) :: set rest k v

end JObj

/-- Python truthiness (`bool(v)`): `None`, `False`, zero, and empty
strings/lists/dicts are falsy. -/
def pyTruthy : JVal → Bool
  | .null => false
  | .bool b => b
  | .num q => q ≠ 0
  | .str s => s ≠ ""
  | .arr xs => ¬ xs.isEmpty
  | .obj kvs => ¬ kvs.isEmpty

/-! ### Character-level string helpers

Python string methods used by the pipeline (`.strip()`,
`.startswith(...)`, `.replace("/", "-")`, substring membership) are
modelled structurally over character lists. -/

/-- Is `p` a prefix of `s`? -/
def listIsPre : List Char → List Char → Bool
  | [], _ => true
  | _ :: _, [] => false
  | c :: cs, d :: ds => c = d && listIsPre cs ds

/-- `s.startswith(p)`. -/
def strStartsWith (s p : String) : Bool :=
  listIsPre p.toList s.toList

/-- Substring membership `needle in hay` for strings. -/
def containsSub (needle : List Char) : List Char → Bool
  | [] => listIsPre needle []
  | c :: rest => listIsPre needle (c :: rest) || containsSub needle rest

/-- `s.strip()` on a character list (Python strips ASCII and Unicode
whitespace; `Char.isWhitespace` is the close structural counterpart). -/
def pyStripChars (cs : List Char) : List Char :=
  ((cs.dropWhile Char.isWhitespace).reverse.dropWhile Char.isWhitespace).reverse

/-- `s.strip()`. -/
def pyStrip (s : String) : String := String.mk (pyStripChars s.toList)

/-- `s.replace("/", "-")` (single-character pattern). -/
def replaceSlashes (s : String) : String :=
  String.mk (s.toList.map (fun c => if c = '/' then '-' else c))

/-- A raised Python exception. -/
inductive PyErr where
  | typeError : String → PyErr
  | valueError : String → PyErr
  | keyError : String → PyErr
deriving DecidableEq, Repr

/-- `str(e)` for an exception (a `KeyError` prints its key in quotes). -/
def pyErrStr : PyErr → String
  | .typeError m => m
  | .valueError m => m
  | .keyError k => "\x27" ++ k ++ "\x27"

/-! ### Decimal rendering (models Python float/str formatting, best effort)

Error messages in the source interpolate Python floats; we render a
rational as a decimal string (integral rationals as `n.0`, like Python
floats).  No claim depends on the exact digits. -/

/-- Fractional digits of `num/den` (`num < den`), up to `fuel` digits. -/
def fracDigits : ℕ → ℕ → ℕ → String
  | 0, _, _ => ""
  | _, _, 0 => ""
  | Nat.succ fuel, num, den =>
      let num10 := num * 10
      let d := num10 / den
      let r := num10 % den
      toString d ++ (if r = 0 then "" else fracDigits fuel r den)

/-- Render a rational the way Python prints the corresponding float:
integral values end in `.0`, others get their decimal expansion (cut
off after 30 digits for non-terminating expansions). -/
def fmtFloat (q : ℚ) : String :=
  let sign := if q < 0 then "-" else ""
  let n := q.num.natAbs
  let d := q.den
  let ip := n / d
  let fr := n % d
  if fr = 0 then sign ++ toString ip ++ ".0"
  else sign ++ toString ip ++ "." ++ fracDigits 30 fr d

/-- Render a rational as a percentage with two decimals, as the format
spec `:.2%` does (rounding half-up; models Python float formatting). -/
def fmtPercent (q : ℚ) : String :=
  let scaled : ℤ := ⌊q * 10000 + 1/2⌋
  let sign := if scaled < 0 then "-" else ""
  let n := scaled.natAbs
  let ip := n / 100
  let fr := n % 100
  let frs := if fr < 10 then "0" ++ toString fr else toString fr
  sign ++ toString ip ++ "." ++ frs ++ "%"

/-- `str(v)` (used by f-string interpolation).  For containers this is a
best-effort placeholder: no claim inspects the rendering of a list or
dict inside an error message. -/
def pyStr : JVal → String
  | .null => "None"
  | .bool b => if b then "True" else "False"
  | .num q => fmtFloat q
  | .str s => s
  | .arr _ => "[...]"
  | .obj _ => "\x7b...\x7d"

/-- `str(x)` for `data.get(k)` results, where a missing key yields
`None`. -/
def pyStrOpt : Option JVal → String
  | some v => pyStr v
  | none => "None"

/-! ### `float(...)` coercion -/

/-- Digits of a string of characters, if all are decimal digits and the
list is non-empty. -/
def digitsVal : List Char → Option ℕ
  | [] => none
  | cs =>
      if cs.all Char.isDigit then
        some (cs.foldl (fun acc c => acc * 10 + (c.toNat - 48)) 0)
      else none

/-- Parse a decimal numeral with optional sign, fraction part and
exponent, as accepted by Python `float(str)` (modulo `inf`/`nan`, which
have no rational counterpart and appear in no claim). -/
def parseFloat? (s : String) : Option ℚ :=
  let cs := pyStripChars s.toList
  let (sign, cs) : ℚ × List Char :=
    match cs with
    | '-' :: rest => (-1, rest)
    | '+' :: rest => (1, rest)
    | _ => (1, cs)
  let (mantChars, expChars) := cs.span (fun c => c ≠ 'e' ∧ c ≠ 'E')
  let mant? : Option ℚ :=
    let (ipChars, rest) := mantChars.span (· ≠ '.')
    match rest with
    | [] => (digitsVal ipChars).map (fun n => (n : ℚ))
    | _ :: fracChars =>
        match ipChars, fracChars with
        | [], [] => none
        | [], _ =>
            (digitsVal fracChars).map
              (fun f => (f : ℚ) / ((10 : ℚ) ^ fracChars.length))
        | _, [] => (digitsVal ipChars).map (fun n => (n : ℚ))
        | _, _ =>
            match digitsVal ipChars, digitsVal fracChars with
            | some n, some f =>
                some ((n : ℚ) + (f : ℚ) / ((10 : ℚ) ^ fracChars.length))
            | _, _ => none
  match mant?, expChars with
  | some m, [] => some (sign * m)
  | some m, _ :: expRest =>
      let (esign, eds) : Bool × List Char :=
        match expRest with
        | '-' :: r => (true, r)
        | '+' :: r => (false, r)
        | _ => (false, expRest)
      match digitsVal eds with
      | some e =>
          some (sign * m * (if esign then ((10 : ℚ) ^ e)⁻¹ else (10 : ℚ) ^ e))
      | none => none
  | none, _ => none

/-- `float(v)`: numbers pass through, booleans become 0/1, strings are
parsed, everything else raises `TypeError`. -/
def pyFloat : JVal → Except PyErr ℚ
  | .num q => .ok q
  | .bool b => .ok (if b then 1 else 0)
  | .str s =>
      match parseFloat? s with
      | some q => .ok q
      | none => .error (.valueError ("could not convert string to float: " ++ s))
  | _ => .error (.typeError "float() argument must be a string or a real number")

/-! ### Subscripting, membership and iteration on dynamic values -/

/-- `k in v` for a string `k`: key membership for dicts, substring test
for strings, element membership for lists; non-iterable values raise. -/
def pyContains (k : String) : JVal → Except PyErr Bool
  | .obj kvs => .ok (JObj.hasKey kvs k)
  | .str s => .ok (containsSub k.toList s.toList)
  | .arr xs => .ok (xs.contains (.str k))
  | _ => .error (.typeError "argument is not iterable")

/-- `v[k]` for a string key `k`. -/
def pyGetItem : JVal → String → Except PyErr JVal
  | .obj kvs, k =>
      match JObj.get? kvs k with
      | some v => .ok v
      | none => .error (.keyError k)
  | .str _, _ => .error (.typeError "string indices must be integers")
  | .arr _, _ => .error (.typeError "list indices must be integers")
  | _, _ => .error (.typeError "object is not subscriptable")

/-- `v[k] = x` for a string key `k` (only dicts support it). -/
def pySetItem : JVal → String → JVal → Except PyErr JVal
  | .obj kvs, k, x => .ok (.obj (JObj.set kvs k x))
  | .str _, _, _ => .error (.typeError "str does not support item assignment")
  | .arr _, _, _ => .error (.typeError "list indices must be integers")
  | _, _, _ => .error (.typeError "object does not support item assignment")

/-- `for x in v`: lists yield their elements, strings their characters
(as one-character strings), dicts their keys; other values raise. -/
def pyIter : JVal → Except PyErr (List JVal)
  | .arr xs => .ok xs
  | .str s => .ok (s.toList.map (fun c => .str (String.mk [c])))
  | .obj kvs => .ok (kvs.map (fun kv => .str kv.1))
  | _ => .error (.typeError "object is not iterable")

/-! ### Calendar dates

`datetime.fromisoformat` / `datetime.now().date()`.  We model date-only
ISO strings `YYYY-MM-DD` (the shape the spec and all claims use). -/

/-- A calendar date. -/
structure Date where
  year : ℕ
  month : ℕ
  day : ℕ
deriving DecidableEq, Repr

/-- Strictly-later comparison on dates (lexicographic). -/
def Date.later (a b : Date) : Bool :=
  b.year < a.year ∨
    (a.year = b.year ∧ (b.month < a.month ∨ (a.month = b.month ∧ b.day < a.day)))

/-- Days in a month, with Gregorian leap years. -/
def daysInMonth (y m : ℕ) : ℕ :=
  if m = 2 then
    if y % 4 = 0 ∧ (y % 100 ≠ 0 ∨ y % 400 = 0) then 29 else 28
  else if m = 4 ∨ m = 6 ∨ m = 9 ∨ m = 11 then 30
  else 31

/-- Numeric value of a digit character. -/
def digitVal (c : Char) : ℕ := c.toNat - 48

/-- Parse `YYYY-MM-DD` into a valid calendar date, as
`datetime.fromisoformat` does for date-only strings (year 0001–9999). -/
def parseISODate (s : String) : Option Date :=
  match s.toList with
  | [y1, y2, y3, y4, '-', m1, m2, '-', d1, d2] =>
      if [y1, y2, y3, y4, m1, m2, d1, d2].all Char.isDigit then
        let y := ((digitVal y1 * 10 + digitVal y2) * 10 + digitVal y3) * 10 + digitVal y4
        let m := digitVal m1 * 10 + digitVal m2
        let d := digitVal d1 * 10 + digitVal d2
        if 1 ≤ y ∧ 1 ≤ m ∧ m ≤ 12 ∧ 1 ≤ d ∧ d ≤ daysInMonth y m then
          some ⟨y, m, d⟩
        else none
      else none
  | _ => none

/-- Left-pad a numeral with zeros. -/
def padNum (width n : ℕ) : String :=
  let s := toString n
  let pad := width - s.length
  String.mk (List.replicate pad '0') ++ s

/-- `strftime("%Y-%m-%d")`. -/
def formatDate (d : Date) : String :=
  padNum 4 d.year ++ "-" ++ padNum 2 d.month ++ "-" ++ padNum 2 d.day

/-! ### Stage 1 — `ValidatorAgent.normalize`

`normalize` starts from the shallow copy `normalized = data.copy()`.
Rebinding a top-level key in the copy leaves the caller's dict alone,
but the `line_items` value is the *same* list object in both dicts, so
coercing an item's field in place is visible to the caller.  We model
this by returning, next to the normalized record, the caller-visible
record after the call (its `line_items` entry replaced by the mutated
list). -/

/-- Date step of `normalize` (wrapped in `try/except Exception: pass`):
parse `str(normalized["date"]).replace("/", "-")` as an ISO date and
reformat it; leave the record unchanged on failure.  `str(v)` of a
non-string value never has the `YYYY-MM-DD` shape, so parsing it fails
exactly as in the source. -/
def normDate (d : JObj) : JObj :=
  match d.get? "date" with
  | some v =>
      match parseISODate (replaceSlashes (pyStr v)) with
      | some dt => d.set "date" (.str (formatDate dt))
      | none => d
  | none => d

/-- Vendor step of `normalize`: trim the vendor when it is a string. -/
def normVendor (d : JObj) : JObj :=
  match d.get? "vendor" with
  | some (.str s) => d.set "vendor" (.str (pyStrip s))
  | _ => d

/-- The inner loop `for field in ["quantity", "unit_price", "total"]` of
`normalize`: coerce each field present in the item to float, in place.
Uncaught coercion failures propagate (there is no `try` here). -/
def coerceItemFields : List String → JVal → Except PyErr JVal
  | [], item => .ok item
  | f :: fs, item => do
      let c ← pyContains f item
      if c then
        let v ← pyGetItem item f
        let q ← pyFloat v
        let item2 ← pySetItem item f (.num q)
        coerceItemFields fs item2
      else
        coerceItemFields fs item

/-- The numeric fields of a line item, in source order. -/
def numericFields : List String := ["quantity", "unit_price", "total"]

/-- The loop `for item in normalized["line_items"]` of `normalize`. -/
def coerceItems : List JVal → Except PyErr (List JVal)
  | [] => .ok []
  | x :: xs => do
      let x2 ← coerceItemFields numericFields x
      let xs2 ← coerceItems xs
      return x2 :: xs2

/-- Line-item step of `normalize`, returning the updated copy and the
updated caller record.  A non-list `line_items` value is iterated (or
raises) exactly as Python would, and cannot be mutated. -/
def normLineItems (d caller : JObj) : Except PyErr (JObj × JObj) :=
  match d.get? "line_items" with
  | none => .ok (d, caller)
  | some (.arr xs) => do
      let xs2 ← coerceItems xs
      .ok (d.set "line_items" (.arr xs2), caller.set "line_items" (.arr xs2))
  | some v => do
      let elems ← pyIter v
      let _ ← coerceItems elems
      .ok (d, caller)

/-- The loop `for field in ["subtotal", "tax", "total"]` of `normalize`:
coerce each top-level field present to float (rebinding only the copy).
Uncaught coercion failures propagate (there is no `try` here). -/
def normTopFloats : List String → JObj → Except PyErr JObj
  | [], d => .ok d
  | f :: fs, d =>
      match d.get? f with
      | some v => do
          let q ← pyFloat v
          normTopFloats fs (d.set f (.num q))
      | none => normTopFloats fs d

/-- `ValidatorAgent.normalize(data)`.  Returns
`(normalized, caller-after)`: the value `normalize` returns and the
caller-visible state of `data` after the call.  An uncaught coercion
failure is an `Except.error`. -/
def normalize (data : JObj) : Except PyErr (JObj × JObj) := do
  let n1 := normDate data
  let n2 := normVendor n1
  let (n3, caller2) ← normLineItems n2 data
  let n4 ← normTopFloats ["subtotal", "tax", "total"] n3
  return (n4, caller2)

/-! ### Stage 2 — `ValidatorAgent.validate_schema`

Models `jsonschema.Draft7Validator(self._default_schema()).iter_errors`
on the fixed default schema.  Error records carry the message, path and
violated-keyword name like the source's dicts; message texts follow the
library's shape but are not reproduced verbatim (no claim reads them).
The top-level `"type": "object"` check always passes because the
pipeline only ever validates a dict. -/

/-- One schema violation, as collected by `validate_schema`. -/
structure SchemaError where
  message : String
  path : List JVal
  validator : String
deriving DecidableEq, Repr

/-- The required top-level fields of the default schema, in order. -/
def requiredFields : List String :=
  ["invoice_number", "date", "vendor", "line_items", "subtotal", "tax", "total"]

/-- Is the value a JSON string? -/
def isStrVal : JVal → Bool
  | .str _ => true
  | _ => false

/-- Does the value fit type `["number", "integer", "string"]`?  (In
Draft 7, `number` already covers `integer`; booleans fit neither.) -/
def isNumOrStr : JVal → Bool
  | .num _ => true
  | .str _ => true
  | _ => false

/-- A `type`-keyword violation at the given path. -/
def typeErr (v : JVal) (ty : String) (path : List JVal) : SchemaError :=
  ⟨pyStr v ++ " is not of type " ++ ty, path, "type"⟩

/-- `required`-keyword violations at the top level. -/
def requiredErrors (kvs : JObj) : List SchemaError :=
  (requiredFields.filter (fun f => !(kvs.hasKey f))).map
    (fun f => ⟨f ++ " is a required property", [], "required"⟩)

/-- Type check of a top-level string-typed property, when present. -/
def checkStrProp (kvs : JObj) (f : String) : List SchemaError :=
  match kvs.get? f with
  | some v => if isStrVal v then [] else [typeErr v "string" [.str f]]
  | none => []

/-- Type check of a top-level numeric-or-string property, when present. -/
def checkNumProp (kvs : JObj) (f : String) : List SchemaError :=
  match kvs.get? f with
  | some v =>
      if isNumOrStr v then [] else [typeErr v "number, integer, string" [.str f]]
  | none => []

/-- Type check of a numeric-or-string field of a line item. -/
def checkItemNum (ikvs : JObj) (base : List JVal) (f : String) : List SchemaError :=
  match JObj.get? ikvs f with
  | some v =>
      if isNumOrStr v then []
      else [typeErr v "number, integer, string" (base ++ [.str f])]
  | none => []

/-- Violations of the item sub-schema for the line item at index `idx`.
A non-object item yields only the `type` violation, as in Draft 7. -/
def itemErrors (idx : ℕ) (item : JVal) : List SchemaError :=
  match item with
  | .obj ikvs =>
      let base : List JVal := [.str "line_items", .num (idx : ℚ)]
      ((["description", "quantity", "unit_price", "total"].filter
          (fun f => !(JObj.hasKey ikvs f))).map
        (fun f => ⟨f ++ " is a required property", base, "required"⟩))
      ++ (match JObj.get? ikvs "description" with
          | some v =>
              if isStrVal v then []
              else [typeErr v "string" (base ++ [.str "description"])]
          | none => [])
      ++ checkItemNum ikvs base "quantity"
      ++ checkItemNum ikvs base "unit_price"
      ++ checkItemNum ikvs base "total"
  | v => [typeErr v "object" [.str "line_items", .num (idx : ℚ)]]

/-- Violations of the `line_items` property, when present. -/
def lineItemsErrors (kvs : JObj) : List SchemaError :=
  match kvs.get? "line_items" with
  | some (.arr xs) => (xs.enum.map (fun p => itemErrors p.1 p.2)).flatten
  | some v => [typeErr v "array" [.str "line_items"]]
  | none => []

/-- `ValidatorAgent.validate_schema(data)` on the default schema:
all violations, keyword by keyword in schema order. -/
def validate_schema (data : JObj) : List SchemaError :=
  requiredErrors data
  ++ checkStrProp data "invoice_number"
  ++ checkStrProp data "date"
  ++ checkStrProp data "vendor"
  ++ lineItemsErrors data
  ++ checkNumProp data "subtotal"
  ++ checkNumProp data "tax"
  ++ checkNumProp data "total"

/-! ### Stage 3 — `ValidatorAgent.validate_dates` -/

/-- `ValidatorAgent.validate_dates(data)` against the current date
`today`.  A falsy (missing or empty) date short-circuits with the
missing-date error; an unparsable date short-circuits with the
invalid-format error (a non-string truthy date raises `AttributeError`
on `.replace`, which the inner `except` turns into the same error);
otherwise a strictly future date is reported.  The outer
`try/except` of the source is unreachable and not modelled. -/
def validate_dates (today : Date) (data : JObj) : List String :=
  let invoice_date := data.getD "date" .null
  if ¬ pyTruthy invoice_date then ["Missing invoice date"]
  else
    match invoice_date with
    | .str s =>
        match parseISODate (replaceSlashes s) with
        | some dt =>
            if dt.later today then ["Invoice date " ++ s ++ " is in the future"]
            else []
        | none => ["Invalid date format: " ++ s]
    | v => ["Invalid date format: " ++ pyStr v]

/-! ### Stage 4 — `ValidatorAgent.validate_business_rules`

The whole body sits in one `try`; on the first raised exception the
errors collected so far are kept and a single generic entry is
appended.  We model the body with `Except (List String × PyErr)`,
packaging the partial error list with the exception. -/

/-- Lift a raising step into the business-rules body, packaging the
errors collected so far with the exception. -/
def tryB {α : Type} (acc : List String) : Except PyErr α → Except (List String × PyErr) α
  | .ok a => .ok a
  | .error e => .error (acc, e)

/-- The line-item mismatch message
`f"Line item {i}: total mismatch (expected {expected_total}, got {item['total']})"`. -/
def lineItemMsg (i : ℕ) (expected : ℚ) (got : JVal) : String :=
  "Line item " ++ toString i ++ ": total mismatch (expected "
    ++ fmtFloat expected ++ ", got " ++ pyStr got ++ ")"

/-- The subtotal mismatch message. -/
def subtotalMsg (expected : ℚ) (got : Option JVal) : String :=
  "Subtotal mismatch (expected " ++ fmtFloat expected ++ ", got " ++ pyStrOpt got ++ ")"

/-- The grand-total mismatch message. -/
def totalMsg (expected : ℚ) (got : Option JVal) : String :=
  "Total mismatch (expected " ++ fmtFloat expected ++ ", got " ++ pyStrOpt got ++ ")"

/-- The loop `for i, item in enumerate(data.get("line_items", []))`:
check every item, collecting one mismatch error per failing item,
never short-circuiting on a mismatch (only a raised exception stops
it). -/
def bizLineLoop : ℕ → List JVal → List String → Except (List String × PyErr) (List String)
  | _, [], acc => .ok acc
  | i, item :: rest, acc => do
      let qv ← tryB acc (pyGetItem item "quantity")
      let q ← tryB acc (pyFloat qv)
      let uv ← tryB acc (pyGetItem item "unit_price")
      let u ← tryB acc (pyFloat uv)
      let tv ← tryB acc (pyGetItem item "total")
      let t ← tryB acc (pyFloat tv)
      let expected := q * u
      let acc2 := if t ≠ expected then acc ++ [lineItemMsg i expected tv] else acc
      bizLineLoop (i + 1) rest acc2

/-- `sum(float(item["total"]) for item in ...)`. -/
def sumTotals : List JVal → Except PyErr ℚ
  | [] => .ok 0
  | item :: rest => do
      let tv ← pyGetItem item "total"
      let t ← pyFloat tv
      let s ← sumTotals rest
      return t + s

/-- The `try`-body of `validate_business_rules`: line-item loop, then
subtotal check, then grand-total check, evaluated in source order. -/
def bizBody (data : JObj) : Except (List String × PyErr) (List String) := do
  let liVal := data.getD "line_items" (.arr [])
  let items ← tryB [] (pyIter liVal)
  let acc1 ← bizLineLoop 0 items []
  let items2 ← tryB acc1 (pyIter liVal)
  let sexp ← tryB acc1 (sumTotals items2)
  let st ← tryB acc1 (pyFloat (data.getD "subtotal" (.num 0)))
  let acc2 := if st ≠ sexp then acc1 ++ [subtotalMsg sexp (data.get? "subtotal")] else acc1
  let st2 ← tryB acc2 (pyFloat (data.getD "subtotal" (.num 0)))
  let tx ← tryB acc2 (pyFloat (data.getD "tax" (.num 0)))
  let texp := st2 + tx
  let tot ← tryB acc2 (pyFloat (data.getD "total" (.num 0)))
  let acc3 := if tot ≠ texp then acc2 ++ [totalMsg texp (data.get? "total")] else acc2
  return acc3

/-- `ValidatorAgent.validate_business_rules(data)`: the collected
errors; a raised exception keeps the errors collected so far and
appends the single generic entry. -/
def validate_business_rules (data : JObj) : List String :=
  match bizBody data with
  | .ok errs => errs
  | .error (errs, e) => errs ++ ["Business rule validation error: " ++ pyErrStr e]

/-! ### Stage 5 — `ValidatorAgent.validate_custom_rules` -/

/-- `ValidatorAgent.validate_custom_rules(data)`: vendor non-emptiness
(Python truthiness of `data.get("vendor")`), the 20% tax-rate cap
(its `try` turns a coercion failure into one generic entry), and the
`INV-` invoice-number policy, in source order.  The float literal `0.2`
is modelled as the exact rational `1/5`. -/
def validate_custom_rules (data : JObj) : List String :=
  let e1 :=
    if ¬ pyTruthy (data.getD "vendor" .null) then ["Vendor is missing or empty"] else []
  let e2 :=
    match pyFloat (data.getD "subtotal" (.num 0)) with
    | .error _ => ["Error calculating tax rate"]
    | .ok st =>
        match pyFloat (data.getD "tax" (.num 0)) with
        | .error _ => ["Error calculating tax rate"]
        | .ok tx =>
            if 0 < st then
              let tax_rate := tx / st
              if 1/5 < tax_rate then
                ["Tax rate too high: " ++ fmtPercent tax_rate ++ " (max 20%)"]
              else []
            else []
  let invoice_number := pyStr (data.getD "invoice_number" (.str ""))
  let e3 :=
    if ¬ strStartsWith invoice_number "INV-" then
      ["Invalid invoice number format: " ++ invoice_number]
    else []
  e1 ++ e2 ++ e3

/-! ### The pipeline — `ValidatorAgent.run_data` -/

/-- The result dict built by `run_data`. -/
structure Verdict where
  status : String
  valid : Bool
  schema_errors : List SchemaError
  business_errors : List String
  date_errors : List String
  custom_errors : List String
  normalized_data : Option JObj
deriving DecidableEq, Repr

/-- `ValidatorAgent.run_data(data)` with the current date `today`:
normalize (its uncaught exceptions propagate), then schema and date
stages (each returning early on failure), then business and custom
stages (both always run).  Returns the verdict together with the
caller-visible state of `data` after the call. -/
def run_data (today : Date) (data : JObj) : Except PyErr (Verdict × JObj) := do
  let (normalized, caller2) ← normalize data
  let schema_errors := validate_schema normalized
  if schema_errors ≠ [] then
    return (⟨"failed", false, schema_errors, [], [], [], some normalized⟩, caller2)
  else
    let date_errors := validate_dates today normalized
    if date_errors ≠ [] then
      return (⟨"failed", false, [], [], date_errors, [], some normalized⟩, caller2)
    else
      let business_errors := validate_business_rules normalized
      let custom_errors := validate_custom_rules normalized
      let bad := (!business_errors.isEmpty) || (!custom_errors.isEmpty)
      return (⟨if bad then "failed" else "success", !bad, [], business_errors, [],
               custom_errors, some normalized⟩, caller2)

/-! ### The messaging boundary — `ValidatorAgent.handle_message` -/

/-- The body of a response envelope: the initial empty dict, a
`{"status": "FAIL", "error": ...}` failure body, or a pipeline
verdict. -/
inductive RespBody where
  | emptyBody : RespBody
  | failBody : String → RespBody
  | verdictBody : Verdict → RespBody
deriving DecidableEq, Repr

/-- A response envelope as built by `handle_message`:
`id`, `type`, `from`, `to`, `body` (the `from`/`to` dict keys are Lean
keywords, hence `fromAddr`/`toAddr`). -/
structure Envelope where
  id : String
  type : String
  fromAddr : String
  toAddr : JVal
  body : RespBody
deriving DecidableEq, Repr

/-- `ValidatorAgent.handle_message(message)`.  `genId` stands for the
`uuid.uuid4()` fresh id used when the request has no `id`.  The in-place
mutation of the invoice nested inside `message` (through `run_data`) is
not returned; no claim reads the request after the call.  A truthy
non-dict invoice payload (on which the pipeline's `data.copy()` would
behave type-dependently) is outside the modelled domain and mapped to an
error; no theorem quantifies over that case. -/
def handle_message (today : Date) (genId : String) (message : JObj) :
    Except PyErr Envelope :=
  let msg_type := message.get? "type"
  let msg_id := message.getD "id" (.str genId)
  let sender := message.getD "from" (.str "unknown")
  let respId := "resp-" ++ pyStr msg_id
  let respType := pyStrOpt msg_type ++ ".response"
  if msg_type = some (.str "validate.invoice") then
    match message.getD "body" (.obj []) with
    | .obj bodyKvs =>
        let invoice := JObj.getD bodyKvs "invoice" .null
        if ¬ pyTruthy invoice then
          .ok ⟨respId, respType, "validator-agent", sender,
               .failBody "Missing invoice payload"⟩
        else
          match invoice with
          | .obj inv => do
              let (result, _) ← run_data today inv
              .ok ⟨respId, respType, "validator-agent", sender, .verdictBody result⟩
          | _ => .error (.typeError "non-dict invoice payload: outside modelled domain")
    | _ => .error (.typeError "message body has no attribute get")
  else
    .ok ⟨respId, respType, "validator-agent", sender,
         .failBody ("Unsupported type " ++ pyStrOpt msg_type)⟩

/-! ### Dictionary lemmas -/

theorem JObj.get?_set_self (d : JObj) (k : String) (v : JVal) :
    (d.set k v).get? k = some v := by
  induction d with
  | nil => simp [JObj.set, JObj.get?]
  | cons kv rest ih =>
      obtain ⟨k0, v0⟩ := kv
      by_cases h : k0 = k
      · simp [JObj.set, JObj.get?, h]
      · simp [JObj.set, JObj.get?, h, ih]

theorem JObj.get?_set_ne (d : JObj) (k k' : String) (v : JVal) (h : k' ≠ k) :
    (d.set k v).get? k' = d.get? k' := by
  induction d with
  | nil => simp [JObj.set, JObj.get?, Ne.symm h]
  | cons kv rest ih =>
      obtain ⟨k0, v0⟩ := kv
      by_cases h0 : k0 = k
      · subst h0
        simp [JObj.set, JObj.get?, Ne.symm h]
      · simp [JObj.set, JObj.get?, h0, ih]

theorem JObj.set_same_of_get? (d : JObj) (k : String) (v : JVal)
    (h : d.get? k = some v) : d.set k v = d := by
  induction d with
  | nil => simp [JObj.get?] at h
  | cons kv rest ih =>
      obtain ⟨k0, v0⟩ := kv
      by_cases h0 : k0 = k
      · subst h0
        simp [JObj.get?] at h
        simp [JObj.set, h]
      · simp [JObj.get?, h0] at h
        simp [JObj.set, h0, ih h]

theorem JObj.set_set_same (d : JObj) (k : String) (v w : JVal) :
    (d.set k v).set k w = d.set k w := by
  induction d with
  | nil => simp [JObj.set]
  | cons kv rest ih =>
      obtain ⟨k0, v0⟩ := kv
      by_cases h0 : k0 = k
      · simp [JObj.set, h0]
      · simp [JObj.set, h0, ih]

theorem JObj.set_comm_left (d : JObj) (k k' : String) (v w : JVal)
    (hk : d.hasKey k = true) (h : k ≠ k') :
    (d.set k v).set k' w = (d.set k' w).set k v := by
  induction d with
  | nil => simp [JObj.hasKey, JObj.get?] at hk
  | cons kv rest ih =>
      obtain ⟨k0, v0⟩ := kv
      by_cases h0 : k0 = k
      · subst h0
        simp [JObj.set, h, Ne.symm h]
      · by_cases h1 : k0 = k'
        · subst h1
          simp [JObj.set, h0, Ne.symm h0]
        · simp only [JObj.hasKey, JObj.get?, h0, if_false] at hk
          simp [JObj.set, h0, h1, ih hk]

theorem JObj.hasKey_set (d : JObj) (k k' : String) (v : JVal) :
    (d.set k v).hasKey k' = if k' = k then true else d.hasKey k' := by
  by_cases h : k' = k
  · subst h; simp [JObj.hasKey, JObj.get?_set_self]
  · simp [JObj.hasKey, JObj.get?_set_ne d k k' v h, h]

/-! ### Case analysis of `run_data` -/

/-- The three shapes a verdict returned by `run_data` can take: the
schema-failure early return, the date-failure early return, and the
verdict composed after both accumulating stages ran. -/
theorem run_data_cases (today : Date) (data : JObj) (v : Verdict) (c : JObj)
    (h : run_data today data = .ok (v, c)) :
    ∃ n, normalize data = .ok (n, c) ∧
      ((validate_schema n ≠ [] ∧
          v = ⟨"failed", false, validate_schema n, [], [], [], some n⟩)
       ∨ (validate_schema n = [] ∧ validate_dates today n ≠ [] ∧
          v = ⟨"failed", false, [], [], validate_dates today n, [], some n⟩)
       ∨ (validate_schema n = [] ∧ validate_dates today n = [] ∧
          v = ⟨if (!(validate_business_rules n).isEmpty) ||
                    (!(validate_custom_rules n).isEmpty) then "failed" else "success",
               !((!(validate_business_rules n).isEmpty) ||
                    (!(validate_custom_rules n).isEmpty)),
               [], validate_business_rules n, [], validate_custom_rules n, some n⟩)) := by
  cases hn : normalize data with
  | error e =>
      simp only [run_data, hn, Except.bind, bind, Except.instMonad] at h
      exact Except.noConfusion h
  | ok p =>
      obtain ⟨n, c2⟩ := p
      simp only [run_data, hn, Except.bind, bind, Except.instMonad, pure,
        Except.pure] at h
      split_ifs at h with hs hd hb
      · rw [Except.ok.injEq, Prod.mk.injEq] at h
        exact ⟨n, by rw [h.2], Or.inl ⟨hs, h.1.symm⟩⟩
      · rw [Except.ok.injEq, Prod.mk.injEq] at h
        exact ⟨n, by rw [h.2],
          Or.inr (Or.inl ⟨not_not.mp hs, hd, h.1.symm⟩)⟩
      · rw [Except.ok.injEq, Prod.mk.injEq] at h
        refine ⟨n, by rw [h.2],
          Or.inr (Or.inr ⟨not_not.mp hs, not_not.mp hd, ?_⟩)⟩
        rw [if_pos hb]
        exact h.1.symm
      · rw [Except.ok.injEq, Prod.mk.injEq] at h
        refine ⟨n, by rw [h.2],
          Or.inr (Or.inr ⟨not_not.mp hs, not_not.mp hd, ?_⟩)⟩
        rw [if_neg hb]
        exact h.1.symm

/-! ### Concrete inputs used by witnesses and counterexamples -/

/-- Fixed current date used by the concrete witnesses. -/
def today0 : Date := ⟨2024, 6, 1⟩

/-- Spec §8 scenario 1: one arithmetically consistent line item. -/
def goodItem : JVal :=
  .obj [("description", .str "Widget"), ("quantity", .num 2),
        ("unit_price", .num 5), ("total", .num 10)]

/-- Spec §8 scenario 1: a fully valid candidate invoice. -/
def goodInvoice : JObj :=
  [("invoice_number", .str "INV-001"), ("date", .str "2024-01-01"),
   ("vendor", .str "Acme"), ("line_items", .arr [goodItem]),
   ("subtotal", .num 10), ("tax", .num 1), ("total", .num 11)]

/-- The verdict of `run_data` on `goodInvoice` (normalization leaves it
unchanged). -/
def goodVerdict : Verdict :=
  ⟨"success", true, [], [], [], [], some goodInvoice⟩

/-- Spec §8 scenario 2: the candidate with `vendor` absent. -/
def noVendorInvoice : JObj :=
  [("invoice_number", .str "INV-001"), ("date", .str "2024-01-01"),
   ("line_items", .arr [goodItem]),
   ("subtotal", .num 10), ("tax", .num 1), ("total", .num 11)]

/-- The verdict of `run_data` on `noVendorInvoice`: one schema error,
every later list empty. -/
def noVendorVerdict : Verdict :=
  ⟨"failed", false, [⟨"vendor is a required property", [], "required"⟩],
   [], [], [], some noVendorInvoice⟩

/-! ### C1 — final verdict composition -/

/-- C1: whenever `run_data` returns a Verdict, `valid` is true iff all
four error lists are empty, `status` mirrors `valid` as
`success`/`failed`, and `normalized_data` is exactly the Stage-1
`normalize` output — in particular non-null even when `valid` is
false. -/
theorem verdict_valid_iff_no_errors (today : Date) (data : JObj) (v : Verdict)
    (c : JObj) (h : run_data today data = .ok (v, c)) :
    (v.valid = true ↔ v.schema_errors = [] ∧ v.date_errors = [] ∧
        v.business_errors = [] ∧ v.custom_errors = [])
    ∧ v.status = (if v.valid then "success" else "failed")
    ∧ (∃ n, normalize data = .ok (n, c) ∧ v.normalized_data = some n) := by
  obtain ⟨n, hn, hcase⟩ := run_data_cases today data v c h
  rcases hcase with ⟨hs, rfl⟩ | ⟨hs, hd, rfl⟩ | ⟨hs, hd, rfl⟩
  · exact ⟨by simp [hs], by simp, n, hn, rfl⟩
  · exact ⟨by simp [hd], by simp, n, hn, rfl⟩
  · refine ⟨?_, ?_, n, hn, rfl⟩
    · simp [List.isEmpty_iff]
    · cases hb : ((!(validate_business_rules n).isEmpty) ||
          (!(validate_custom_rules n).isEmpty)) <;> simp [hb]

/-- Witness for C1 at the valid invoice of spec §8 scenario 1. -/
theorem verdict_valid_iff_no_errors_witness :
    (goodVerdict.valid = true ↔ goodVerdict.schema_errors = [] ∧
        goodVerdict.date_errors = [] ∧ goodVerdict.business_errors = [] ∧
        goodVerdict.custom_errors = [])
    ∧ goodVerdict.status = (if goodVerdict.valid then "success" else "failed")
    ∧ (∃ n, normalize goodInvoice = .ok (n, goodInvoice) ∧
        goodVerdict.normalized_data = some n) :=
  verdict_valid_iff_no_errors today0 goodInvoice goodVerdict goodInvoice (by rfl)

/-! ### C3 — short-circuit law -/

/-- C3: in every Verdict `run_data` returns, non-empty schema errors
force the three later lists to be empty, and non-empty date errors
force the business and custom lists to be empty. -/
theorem schema_and_date_short_circuit (today : Date) (data : JObj) (v : Verdict)
    (c : JObj) (h : run_data today data = .ok (v, c)) :
    (v.schema_errors ≠ [] →
      v.date_errors = [] ∧ v.business_errors = [] ∧ v.custom_errors = [])
    ∧ (v.date_errors ≠ [] → v.business_errors = [] ∧ v.custom_errors = []) := by
  obtain ⟨n, hn, hcase⟩ := run_data_cases today data v c h
  rcases hcase with ⟨hs, rfl⟩ | ⟨hs, hd, rfl⟩ | ⟨hs, hd, rfl⟩ <;> simp

/-- Witness for C3 at the vendor-less invoice of spec §8 scenario 2. -/
theorem schema_and_date_short_circuit_witness :
    (noVendorVerdict.schema_errors ≠ [] →
      noVendorVerdict.date_errors = [] ∧ noVendorVerdict.business_errors = [] ∧
        noVendorVerdict.custom_errors = [])
    ∧ (noVendorVerdict.date_errors ≠ [] →
      noVendorVerdict.business_errors = [] ∧ noVendorVerdict.custom_errors = []) :=
  schema_and_date_short_circuit today0 noVendorInvoice noVendorVerdict
    noVendorInvoice (by rfl)

/-! ### C6 — date stage behaviour and short-circuit -/

/-- C6: the date stage reports a missing-date error when `date` is empty
or absent; otherwise for an unparsable date exactly the invalid-format
error (the future check never runs); otherwise exactly the future-date
error when the parsed date is strictly later than the current date (and
no error when it equals today); and whenever date errors exist,
`run_data` returns a failed verdict without running the business or
custom stage. -/
theorem validate_dates_characterization (today : Date) (data : JObj) :
    ((data.get? "date" = none ∨ data.get? "date" = some (.str "")) →
        validate_dates today data = ["Missing invoice date"])
    ∧ (∀ s, data.get? "date" = some (.str s) → s ≠ "" →
        parseISODate (replaceSlashes s) = none →
        validate_dates today data = ["Invalid date format: " ++ s])
    ∧ (∀ s dt, data.get? "date" = some (.str s) → s ≠ "" →
        parseISODate (replaceSlashes s) = some dt →
        (validate_dates today data =
            (if dt.later today then ["Invoice date " ++ s ++ " is in the future"]
             else []))
        ∧ (dt = today → validate_dates today data = []))
    ∧ (∀ v c, run_data today data = .ok (v, c) → v.date_errors ≠ [] →
        v.status = "failed" ∧ v.business_errors = [] ∧ v.custom_errors = []) := by
  refine ⟨?_, ?_, ?_, ?_⟩
  · rintro (h | h) <;> simp [validate_dates, JObj.getD, h, pyTruthy]
  · intro s h hne hp
    simp [validate_dates, JObj.getD, h, pyTruthy, hne, hp]
  · intro s dt h hne hp
    constructor
    · simp [validate_dates, JObj.getD, h, pyTruthy, hne, hp]
    · rintro rfl
      simp [validate_dates, JObj.getD, h, pyTruthy, hne, hp, Date.later]
  · intro v c h hd
    obtain ⟨n, hn, hcase⟩ := run_data_cases today data v c h
    rcases hcase with ⟨hs, rfl⟩ | ⟨hs, hde, rfl⟩ | ⟨hs, hde, rfl⟩
    · simp at hd
    · exact ⟨rfl, rfl, rfl⟩
    · simp at hd

/-- Spec §8 scenario 3 shape: schema-valid invoice dated in the future
relative to `today0`. -/
def futureInvoice : JObj :=
  [("invoice_number", .str "INV-001"), ("date", .str "2025-01-01"),
   ("vendor", .str "Acme"), ("line_items", .arr [goodItem]),
   ("subtotal", .num 10), ("tax", .num 1), ("total", .num 11)]

/-- The verdict of `run_data` on `futureInvoice`. -/
def futureVerdict : Verdict :=
  ⟨"failed", false, [], [], ["Invoice date 2025-01-01 is in the future"], [],
   some futureInvoice⟩

/-- Witness for C6: each branch of the date stage at a concrete input,
and the short-circuit at the future-dated invoice. -/
theorem validate_dates_characterization_witness :
    validate_dates today0 [] = ["Missing invoice date"]
    ∧ validate_dates today0 [("date", .str "13/13/2013")] =
        ["Invalid date format: 13/13/2013"]
    ∧ validate_dates today0 [("date", .str "2025-01-01")] =
        (if Date.later ⟨2025, 1, 1⟩ today0 then
          ["Invoice date 2025-01-01 is in the future"] else [])
    ∧ validate_dates today0 [("date", .str "2024-06-01")] = []
    ∧ (futureVerdict.status = "failed" ∧ futureVerdict.business_errors = [] ∧
        futureVerdict.custom_errors = []) :=
  ⟨(validate_dates_characterization today0 []).1 (Or.inl rfl),
   (validate_dates_characterization today0 [("date", .str "13/13/2013")]).2.1
     "13/13/2013" rfl (by decide) (by rfl),
   ((validate_dates_characterization today0 [("date", .str "2025-01-01")]).2.2.1
     "2025-01-01" ⟨2025, 1, 1⟩ rfl (by decide) (by rfl)).1,
   ((validate_dates_characterization today0 [("date", .str "2024-06-01")]).2.2.1
     "2024-06-01" ⟨2024, 6, 1⟩ rfl (by decide) (by rfl)).2 rfl,
   (validate_dates_characterization today0 futureInvoice).2.2.2 futureVerdict
     futureInvoice (by rfl) (by decide)⟩

/-! ### C2 — corrected: numeric coercion failures crash the pipeline -/

/-- A schema-type-correct candidate whose `subtotal` is a non-numeric
string: `normalize` raises `ValueError` on `float("abc")`. -/
def badSubInvoice : JObj :=
  [("invoice_number", .str "INV-001"), ("date", .str "2024-01-01"),
   ("vendor", .str "A"), ("line_items", .arr []),
   ("subtotal", .str "abc"), ("tax", .num 0), ("total", .num 0)]

/-- C2 counterexample: on a candidate whose `subtotal` cannot be coerced
to float, `run_data` does not return a Verdict at all — the coercion
failure inside `normalize` propagates as an uncaught `ValueError`
(there is no `try` around the numeric coercions), contradicting the
claim that such failures are swallowed and reported downstream. -/
theorem normalize_coercion_failure_crashes :
    run_data today0 badSubInvoice =
      .error (.valueError "could not convert string to float: abc") := by rfl

/-- C2 (amended): Stage-1 normalization does not swallow numeric
coercion failures; any exception `normalize` raises is propagated
unchanged by `run_data`, which then returns no Verdict (so the
downstream stages never see the record). -/
theorem run_data_propagates_normalize_error (today : Date) (data : JObj)
    (e : PyErr) (h : normalize data = .error e) :
    run_data today data = .error e := by
  simp only [run_data, h, Except.bind, bind, Except.instMonad]

/-- Witness for the amended C2 at the concrete `badSubInvoice`. -/
theorem run_data_propagates_normalize_error_witness :
    run_data today0 badSubInvoice =
      .error (.valueError "could not convert string to float: abc") :=
  run_data_propagates_normalize_error today0 badSubInvoice
    (.valueError "could not convert string to float: abc") (by rfl)

/-! ### C4 — business-rule stage against the spec's description -/

/-- Spec-side accessor: the float value of a field of a normalized line
item (the theorems' hypotheses guarantee the field is present and
numeric). -/
def numField (item : JVal) (f : String) : ℚ :=
  match item with
  | .obj ikvs =>
      match JObj.get? ikvs f with
      | some (.num q) => q
      | _ => 0
  | _ => 0

/-- Top-level counterpart of `numField`. -/
def topNum (d : JObj) (f : String) : ℚ :=
  match d.get? f with
  | some (.num q) => q
  | _ => 0

/-- A line item as Stage 4 sees it when normalization succeeded and the
schema check passed: a dict whose numeric fields hold floats. -/
def wfItem (item : JVal) : Prop :=
  ∃ ikvs q u t, item = .obj ikvs
    ∧ JObj.get? ikvs "quantity" = some (.num q)
    ∧ JObj.get? ikvs "unit_price" = some (.num u)
    ∧ JObj.get? ikvs "total" = some (.num t)

/-- The mismatch entry the spec prescribes for an indexed line item:
present exactly when `total` differs from `quantity * unit_price`. -/
def mismatchEntry (p : ℕ × JVal) : Option String :=
  let q := numField p.2 "quantity"
  let u := numField p.2 "unit_price"
  let t := numField p.2 "total"
  if t ≠ q * u then some (lineItemMsg p.1 (q * u) (.num t)) else none

/-- Stage 4 as §4 of the spec describes it: one mismatch entry per
failing line item (no short-circuit), then the subtotal check against
the sum of the item totals, then the grand-total check against
`subtotal + tax`. -/
def businessErrorsSpec (data : JObj) (xs : List JVal) : List String :=
  (xs.enum.filterMap mismatchEntry)
  ++ (if topNum data "subtotal" ≠ (xs.map (fun it => numField it "total")).sum then
        [subtotalMsg ((xs.map (fun it => numField it "total")).sum) (data.get? "subtotal")]
      else [])
  ++ (if topNum data "total" ≠ topNum data "subtotal" + topNum data "tax" then
        [totalMsg (topNum data "subtotal" + topNum data "tax") (data.get? "total")]
      else [])

/-- The line-item loop collects exactly the indexed mismatch entries
when every item is well-formed. -/
theorem bizLineLoop_wf (xs : List JVal) :
    ∀ i acc, (∀ item ∈ xs, wfItem item) →
      bizLineLoop i xs acc =
        .ok (acc ++ (List.enumFrom i xs).filterMap mismatchEntry) := by
  induction xs with
  | nil => intro i acc _; simp [bizLineLoop]
  | cons item rest ih =>
      intro i acc h
      obtain ⟨ikvs, q, u, t, rfl, hq, hu, ht⟩ := h item (by simp)
      have hrest : ∀ x ∈ rest, wfItem x := fun x hx => h x (by simp [hx])
      simp only [bizLineLoop, pyGetItem, hq, hu, ht, pyFloat, tryB,
        Except.bind, bind, Except.instMonad]
      rw [ih (i + 1) _ hrest]
      by_cases hm : t = q * u
      · simp [hm, mismatchEntry, numField, hq, hu, ht]
      · simp [hm, mismatchEntry, numField, hq, hu, ht]

/-- `sum(float(item["total"]) ...)` computes the sum of the item totals
when every item is well-formed. -/
theorem sumTotals_wf : ∀ xs : List JVal, (∀ item ∈ xs, wfItem item) →
    sumTotals xs = .ok ((xs.map (fun it => numField it "total")).sum) := by
  intro xs
  induction xs with
  | nil => intro _; simp [sumTotals]
  | cons item rest ih =>
      intro h
      obtain ⟨ikvs, q, u, t, rfl, hq, hu, ht⟩ := h item (by simp)
      have hrest : ∀ x ∈ rest, wfItem x := fun x hx => h x (by simp [hx])
      simp [sumTotals, pyGetItem, ht, pyFloat, ih hrest, numField,
        Except.bind, bind, Except.instMonad, pure, Except.pure]

/-- On a fully normalized record whose line items are well-formed, the
business-rule stage computes exactly the spec's declarative list
(shared workhorse behind the Stage-4 results). -/
theorem validate_business_rules_wf_eq (data : JObj) (xs : List JVal) (st tx tot : ℚ)
    (hli : JObj.get? data "line_items" = some (.arr xs))
    (hwf : ∀ item ∈ xs, wfItem item)
    (hst : JObj.get? data "subtotal" = some (.num st))
    (htx : JObj.get? data "tax" = some (.num tx))
    (htot : JObj.get? data "total" = some (.num tot)) :
    validate_business_rules data = businessErrorsSpec data xs := by
  have h1 := bizLineLoop_wf xs 0 [] hwf
  have h2 := sumTotals_wf xs hwf
  simp only [validate_business_rules, bizBody, JObj.getD, hli, hst, htx, htot,
    Option.getD, pyIter, tryB, h1, h2, pyFloat, List.nil_append,
    Except.bind, bind, Except.instMonad, pure, Except.pure]
  simp only [businessErrorsSpec, topNum, hli, hst, htx, htot, List.enum]
  by_cases hsub : st = (xs.map (fun it => numField it "total")).sum
  · subst hsub
    by_cases htot2 : tot = (xs.map (fun it => numField it "total")).sum + tx
    · simp [htot2]
    · simp [htot2]
  · by_cases htot2 : tot = st + tx
    · simp [hsub, htot2]
    · simp [hsub, htot2, List.append_assoc]

/-- C4: on a normalized record that passed the schema stage, the
business-rule stage checks every line item without short-circuiting and
returns exactly the spec's list — per-item mismatches naming index,
expected and actual values, then the subtotal check, then the total
check; and any exception inside the stage is converted into the single
generic entry appended to the errors collected so far. -/
theorem validate_business_rules_spec :
    (∀ data xs st tx tot, JObj.get? data "line_items" = some (.arr xs) →
      (∀ item ∈ xs, wfItem item) →
      JObj.get? data "subtotal" = some (.num st) →
      JObj.get? data "tax" = some (.num tx) →
      JObj.get? data "total" = some (.num tot) →
      validate_business_rules data = businessErrorsSpec data xs)
    ∧ (∀ data errs e, bizBody data = .error (errs, e) →
        validate_business_rules data =
          errs ++ ["Business rule validation error: " ++ pyErrStr e]) := by
  constructor
  · intro data xs st tx tot hli hwf hst htx htot
    exact validate_business_rules_wf_eq data xs st tx tot hli hwf hst htx htot
  · intro data errs e h
    simp [validate_business_rules, h]

/-- Spec §8 scenario 4: one line item whose arithmetic is wrong
(`2 * 5 ≠ 9`), already-normalized numeric fields. -/
def badArithItem : JVal :=
  .obj [("description", .str "W"), ("quantity", .num 2),
        ("unit_price", .num 5), ("total", .num 9)]

/-- A normalized record with the single arithmetically wrong line item,
whose subtotal and total are consistent with the item totals. -/
def badArithData : JObj :=
  [("invoice_number", .str "INV-002"), ("date", .str "2024-01-01"),
   ("vendor", .str "Acme"), ("line_items", .arr [badArithItem]),
   ("subtotal", .num 9), ("tax", .num 0), ("total", .num 9)]

/-- Witness for C4: the wrong line item yields exactly the one indexed
mismatch entry, and a non-iterable `line_items` value exercises the
generic catch path. -/
theorem validate_business_rules_spec_witness :
    validate_business_rules badArithData = businessErrorsSpec badArithData [badArithItem]
    ∧ validate_business_rules [("line_items", .num 5)] =
        [] ++ ["Business rule validation error: object is not iterable"] :=
  ⟨validate_business_rules_spec.1 badArithData [badArithItem] 9 0 9 rfl
      (by
        intro item hm
        rw [List.mem_singleton] at hm
        subst hm
        exact ⟨_, 2, 5, 9, rfl, rfl, rfl, rfl⟩)
      rfl rfl rfl,
   validate_business_rules_spec.2 [("line_items", .num 5)] []
     (.typeError "object is not iterable") (by rfl)⟩

/-! ### C5 — custom-rule stage against the spec's description -/

/-- C5: on a normalized record that passed the earlier stages, the
custom-rule stage reports the vendor-missing error exactly when the
(already trimmed) vendor is empty, the tax-rate error — including the
computed percentage — exactly when `subtotal > 0` and `tax/subtotal`
exceeds `0.2`, and the invoice-number error exactly when the number
does not start with `INV-`; a coercion failure while computing the tax
ratio is reported as the single generic entry instead. -/
theorem validate_custom_rules_spec :
    (∀ data s st tx inv,
      JObj.get? data "vendor" = some (.str s) → pyStrip s = s →
      JObj.get? data "subtotal" = some (.num st) →
      JObj.get? data "tax" = some (.num tx) →
      JObj.get? data "invoice_number" = some (.str inv) →
      validate_custom_rules data =
        (if s = "" then ["Vendor is missing or empty"] else [])
        ++ (if 0 < st ∧ 1/5 < tx / st then
              ["Tax rate too high: " ++ fmtPercent (tx / st) ++ " (max 20%)"]
            else [])
        ++ (if ¬ strStartsWith inv "INV-" then
              ["Invalid invoice number format: " ++ inv]
            else []))
    ∧ (∀ data e, pyFloat (JObj.getD data "subtotal" (.num 0)) = .error e →
        validate_custom_rules data =
          (if ¬ pyTruthy (JObj.getD data "vendor" .null) then
              ["Vendor is missing or empty"] else [])
          ++ ["Error calculating tax rate"]
          ++ (if ¬ strStartsWith (pyStr (JObj.getD data "invoice_number" (.str ""))) "INV-" then
                ["Invalid invoice number format: " ++
                  pyStr (JObj.getD data "invoice_number" (.str ""))]
              else [])) := by
  constructor
  · intro data s st tx inv hv _hs hst htx hinv
    simp only [validate_custom_rules, JObj.getD, hv, hst, htx, hinv, Option.getD,
      pyFloat, pyTruthy, pyStr]
    by_cases hpos : 0 < st
    · by_cases hrate : 1/5 < tx / st
      · simp [hpos, hrate]
      · simp [hpos, hrate]
    · simp [hpos]
  · intro data e h
    simp only [validate_custom_rules, h]

/-- A normalized record violating all three custom rules at once. -/
def allCustomBad : JObj :=
  [("vendor", .str ""), ("subtotal", .num 100), ("tax", .num 25),
   ("invoice_number", .str "2024-INV")]

/-- Witness for C5: all three policy violations at a concrete record,
and the generic tax-rate error on an uncoercible subtotal. -/
theorem validate_custom_rules_spec_witness :
    validate_custom_rules allCustomBad =
      (if ("" : String) = "" then ["Vendor is missing or empty"] else [])
      ++ (if 0 < (100 : ℚ) ∧ 1/5 < (25 : ℚ) / 100 then
            ["Tax rate too high: " ++ fmtPercent ((25 : ℚ) / 100) ++ " (max 20%)"]
          else [])
      ++ (if ¬ strStartsWith "2024-INV" "INV-" then
            ["Invalid invoice number format: " ++ "2024-INV"]
          else [])
    ∧ validate_custom_rules [("subtotal", .str "x")] =
        (if ¬ pyTruthy (JObj.getD [("subtotal", .str "x")] "vendor" .null) then
            ["Vendor is missing or empty"] else [])
        ++ ["Error calculating tax rate"]
        ++ (if ¬ strStartsWith (pyStr (JObj.getD [("subtotal", .str "x")] "invoice_number" (.str ""))) "INV-" then
              ["Invalid invoice number format: " ++
                pyStr (JObj.getD [("subtotal", .str "x")] "invoice_number" (.str ""))]
            else []) :=
  ⟨validate_custom_rules_spec.1 allCustomBad "" 100 25 "2024-INV" rfl rfl rfl rfl rfl,
   validate_custom_rules_spec.2 [("subtotal", .str "x")]
     (.valueError "could not convert string to float: x") (by rfl)⟩

/-! ### C7 — non-short-circuit law for the accumulating stages -/

/-- Every list element appears in `enumFrom` at some index. -/
theorem mem_enumFrom_of_mem {α : Type} :
    ∀ (xs : List α) (k : ℕ) (a : α), a ∈ xs → ∃ i, (i, a) ∈ List.enumFrom k xs := by
  intro xs
  induction xs with
  | nil => intro k a h; cases h
  | cons x rest ih =>
      intro k a h
      rcases List.mem_cons.mp h with rfl | h2
      · exact ⟨k, by simp⟩
      · obtain ⟨i, hi⟩ := ih (k + 1) a h2
        exact ⟨i, by simp [hi]⟩

/-- An empty vendor string makes the custom-rule stage report at least
the vendor error. -/
theorem custom_rules_ne_nil_of_empty_vendor (d : JObj)
    (hv : JObj.get? d "vendor" = some (.str "")) :
    validate_custom_rules d ≠ [] := by
  simp [validate_custom_rules, JObj.getD, hv, pyTruthy]

/-- A well-formed line item with wrong arithmetic forces a non-empty
Stage-4 error list. -/
theorem business_ne_nil_of_mismatch (data : JObj) (xs : List JVal)
    (st tx tot : ℚ) (item : JVal) (ikvs : JObj) (q u t : ℚ)
    (hli : JObj.get? data "line_items" = some (.arr xs))
    (hwf : ∀ it ∈ xs, wfItem it)
    (hst : JObj.get? data "subtotal" = some (.num st))
    (htx : JObj.get? data "tax" = some (.num tx))
    (htot : JObj.get? data "total" = some (.num tot))
    (hmem : item ∈ xs) (hitem : item = .obj ikvs)
    (hq : JObj.get? ikvs "quantity" = some (.num q))
    (hu : JObj.get? ikvs "unit_price" = some (.num u))
    (ht : JObj.get? ikvs "total" = some (.num t))
    (hne : t ≠ q * u) :
    validate_business_rules data ≠ [] := by
  rw [validate_business_rules_wf_eq data xs st tx tot hli hwf hst htx htot]
  obtain ⟨i, hi⟩ := mem_enumFrom_of_mem xs 0 item hmem
  have hsome : mismatchEntry (i, item) = some (lineItemMsg i (q * u) (.num t)) := by
    subst hitem
    simp [mismatchEntry, numField, hq, hu, ht, hne]
  have hmsg : lineItemMsg i (q * u) (.num t) ∈ xs.enum.filterMap mismatchEntry := by
    rw [List.enum]
    exact List.mem_filterMap.mpr ⟨(i, item), hi, hsome⟩
  intro hcontra
  rw [businessErrorsSpec] at hcontra
  rw [List.append_assoc, List.append_eq_nil] at hcontra
  rw [hcontra.1] at hmsg
  cases hmsg

/-- C7: when the schema and date checks pass but some line item's
arithmetic is wrong and the normalized vendor is empty, the same
Verdict carries non-empty business errors and non-empty custom errors
(the custom stage runs regardless of the business stage's outcome). -/
theorem business_and_custom_errors_coexist (today : Date) (data : JObj)
    (v : Verdict) (c n c2 : JObj) (xs : List JVal) (st tx tot : ℚ)
    (item : JVal) (ikvs : JObj) (q u t : ℚ)
    (h : run_data today data = .ok (v, c))
    (hn : normalize data = .ok (n, c2))
    (hs : v.schema_errors = []) (hd : v.date_errors = [])
    (hli : JObj.get? n "line_items" = some (.arr xs))
    (hwf : ∀ it ∈ xs, wfItem it)
    (hst : JObj.get? n "subtotal" = some (.num st))
    (htx : JObj.get? n "tax" = some (.num tx))
    (htot : JObj.get? n "total" = some (.num tot))
    (hmem : item ∈ xs) (hitem : item = .obj ikvs)
    (hq : JObj.get? ikvs "quantity" = some (.num q))
    (hu : JObj.get? ikvs "unit_price" = some (.num u))
    (ht : JObj.get? ikvs "total" = some (.num t))
    (hne : t ≠ q * u)
    (hv : JObj.get? n "vendor" = some (.str "")) :
    v.business_errors ≠ [] ∧ v.custom_errors ≠ [] := by
  obtain ⟨n', hn', hcase⟩ := run_data_cases today data v c h
  rw [hn] at hn'
  have hpair := Except.ok.inj hn'
  have hnn : n = n' := congrArg Prod.fst hpair
  subst hnn
  rcases hcase with ⟨hsc, rfl⟩ | ⟨hsc, hdc, rfl⟩ | ⟨hsc, hdc, rfl⟩
  · simp only [Verdict.schema_errors] at hs
    exact absurd hs hsc
  · simp only [Verdict.date_errors] at hd
    exact absurd hd hdc
  · constructor
    · simpa using business_ne_nil_of_mismatch n xs st tx tot item ikvs q u t
        hli hwf hst htx htot hmem hitem hq hu ht hne
    · simpa using custom_rules_ne_nil_of_empty_vendor n hv

/-- A candidate that passes schema and date checks while violating one
line item's arithmetic and carrying a whitespace-only vendor. -/
def badBothInvoice : JObj :=
  [("invoice_number", .str "INV-001"), ("date", .str "2024/01/05"),
   ("vendor", .str "  "), ("line_items", .arr [badArithItem]),
   ("subtotal", .num 9), ("tax", .num 0), ("total", .num 9)]

/-- The normalization of `badBothInvoice`: date canonicalized, vendor
trimmed to the empty string. -/
def badBothNorm : JObj :=
  [("invoice_number", .str "INV-001"), ("date", .str "2024-01-05"),
   ("vendor", .str ""), ("line_items", .arr [badArithItem]),
   ("subtotal", .num 9), ("tax", .num 0), ("total", .num 9)]

/-- The verdict of `run_data` on `badBothInvoice`: business and custom
errors populated simultaneously. -/
def badBothVerdict : Verdict :=
  ⟨"failed", false, [],
   ["Line item 0: total mismatch (expected 10.0, got 9.0)"], [],
   ["Vendor is missing or empty"], some badBothNorm⟩

/-- Witness for C7 at `badBothInvoice`. -/
theorem business_and_custom_errors_coexist_witness :
    badBothVerdict.business_errors ≠ [] ∧ badBothVerdict.custom_errors ≠ [] :=
  business_and_custom_errors_coexist today0 badBothInvoice badBothVerdict
    badBothInvoice badBothNorm badBothInvoice [badArithItem] 9 0 9
    badArithItem
    [("description", .str "W"), ("quantity", .num 2),
     ("unit_price", .num 5), ("total", .num 9)] 2 5 9
    (by rfl) (by rfl) rfl rfl rfl
    (by
      intro it hm
      rw [List.mem_singleton] at hm
      subst hm
      exact ⟨_, 2, 5, 9, rfl, rfl, rfl, rfl⟩)
    rfl rfl rfl
    (by simp [badArithItem]) rfl rfl rfl rfl (by decide) rfl

/-! ### C8 — corrected: `run_data` mutates the caller's line items -/

/-- The date step only rebinds the `date` key. -/
theorem normDate_get?_ne (d : JObj) (k : String) (hk : k ≠ "date") :
    JObj.get? (normDate d) k = JObj.get? d k := by
  unfold normDate
  split
  · split
    · exact JObj.get?_set_ne d "date" k _ hk
    · rfl
  · rfl

/-- The vendor step only rebinds the `vendor` key. -/
theorem normVendor_get?_ne (d : JObj) (k : String) (hk : k ≠ "vendor") :
    JObj.get? (normVendor d) k = JObj.get? d k := by
  unfold normVendor
  split
  · exact JObj.get?_set_ne d "vendor" k _ hk
  · rfl

/-- The top-level float pass only rebinds the listed fields. -/
theorem normTopFloats_get?_not_mem :
    ∀ (fs : List String) (d d' : JObj), normTopFloats fs d = .ok d' →
      ∀ k, k ∉ fs → JObj.get? d' k = JObj.get? d k := by
  intro fs
  induction fs with
  | nil =>
      intro d d' h k _
      simp only [normTopFloats] at h
      rw [← Except.ok.inj h]
  | cons f rest ih =>
      intro d d' h k hk
      rw [List.mem_cons, not_or] at hk
      simp only [normTopFloats] at h
      split at h
      next v heq =>
        cases hq : pyFloat v with
        | error e =>
            rw [hq] at h
            simp only [Except.bind, bind, Except.instMonad] at h
            exact Except.noConfusion h
        | ok q =>
            rw [hq] at h
            simp only [Except.bind, bind, Except.instMonad] at h
            rw [ih _ d' h k hk.2]
            exact JObj.get?_set_ne d f k _ hk.1
      next heq => exact ih d d' h k hk.2

/-- Decomposition of a successful `normalize`: the line-item step
produced the caller-visible record, and the top-level float pass
produced the normalized record. -/
theorem normalize_parts (data n c : JObj) (hn : normalize data = .ok (n, c)) :
    ∃ nli, normLineItems (normVendor (normDate data)) data = .ok (nli, c)
      ∧ normTopFloats ["subtotal", "tax", "total"] nli = .ok n := by
  cases hli : normLineItems (normVendor (normDate data)) data with
  | error e =>
      simp [normalize, hli, Except.bind, bind, Except.instMonad] at hn
  | ok p =>
      obtain ⟨nli, c'⟩ := p
      cases htf : normTopFloats ["subtotal", "tax", "total"] nli with
      | error e =>
          simp [normalize, hli, htf, Except.bind, bind, Except.instMonad] at hn
      | ok n' =>
          simp only [normalize, hli, htf, Except.bind, bind, Except.instMonad,
            pure, Except.pure, Except.ok.injEq, Prod.mk.injEq] at hn
          exact ⟨nli, by rw [hn.2], by rw [htf, hn.1]⟩

/-- Equation: the line-item step with no `line_items` key. -/
theorem normLineItems_eq_none (d caller : JObj)
    (h : JObj.get? d "line_items" = none) :
    normLineItems d caller = .ok (d, caller) := by
  unfold normLineItems
  rw [h]

/-- Equation: the line-item step on a list value. -/
theorem normLineItems_eq_arr (d caller : JObj) (xs : List JVal)
    (h : JObj.get? d "line_items" = some (.arr xs)) :
    normLineItems d caller = (do
      let xs2 ← coerceItems xs
      .ok (d.set "line_items" (.arr xs2), caller.set "line_items" (.arr xs2))) := by
  unfold normLineItems
  rw [h]

/-- Equation: the line-item step on a non-list value. -/
theorem normLineItems_eq_other (d caller : JObj) (w : JVal)
    (h : JObj.get? d "line_items" = some w) (hw : ∀ xs, w ≠ .arr xs) :
    normLineItems d caller = (do
      let elems ← pyIter w
      let _ ← coerceItems elems
      .ok (d, caller)) := by
  unfold normLineItems
  rw [h]
  cases w with
  | arr xs => exact absurd rfl (hw xs)
  | null => rfl
  | bool b => rfl
  | num q => rfl
  | str s => rfl
  | obj kvs => rfl

/-- What a successful `normalize` does to the caller's record: nothing,
unless `line_items` holds a list, in which case that entry is replaced
by the in-place-coerced items — which the normalized record shares. -/
theorem normalize_caller (data n c : JObj) (hn : normalize data = .ok (n, c)) :
    (JObj.get? data "line_items" = none → c = data)
    ∧ (∀ xs, JObj.get? data "line_items" = some (.arr xs) →
        ∃ xs2, coerceItems xs = .ok xs2
          ∧ c = JObj.set data "line_items" (.arr xs2)
          ∧ JObj.get? n "line_items" = some (.arr xs2))
    ∧ (∀ w, JObj.get? data "line_items" = some w → (∀ xs, w ≠ .arr xs) →
        c = data) := by
  obtain ⟨nli, hli, htf⟩ := normalize_parts data n c hn
  have hpre : JObj.get? (normVendor (normDate data)) "line_items" =
      JObj.get? data "line_items" := by
    rw [normVendor_get?_ne _ _ (by decide), normDate_get?_ne _ _ (by decide)]
  refine ⟨?_, ?_, ?_⟩
  · intro h0
    rw [normLineItems_eq_none _ data (hpre.trans h0)] at hli
    obtain ⟨-, h2⟩ := Prod.mk.injEq .. ▸ Except.ok.inj hli
    exact h2.symm
  · intro xs h0
    rw [normLineItems_eq_arr _ data xs (hpre.trans h0)] at hli
    cases hco : coerceItems xs with
    | error e =>
        rw [hco] at hli
        simp only [Except.bind, bind, Except.instMonad] at hli
        exact Except.noConfusion hli
    | ok xs2 =>
        rw [hco] at hli
        simp only [Except.bind, bind, Except.instMonad] at hli
        obtain ⟨h1, h2⟩ := Prod.mk.injEq .. ▸ Except.ok.inj hli
        refine ⟨xs2, rfl, h2.symm, ?_⟩
        rw [normTopFloats_get?_not_mem _ nli n htf "line_items" (by decide)]
        rw [← h1]
        exact JObj.get?_set_self _ _ _
  · intro w h0 hnotarr
    rw [normLineItems_eq_other _ data w (hpre.trans h0) hnotarr] at hli
    cases hit : pyIter w with
    | error e =>
        rw [hit] at hli
        simp only [Except.bind, bind, Except.instMonad] at hli
        exact Except.noConfusion hli
    | ok elems =>
        rw [hit] at hli
        simp only [Except.bind, bind, Except.instMonad] at hli
        cases hco : coerceItems elems with
        | error e =>
            rw [hco] at hli
            exact Except.noConfusion hli
        | ok ys =>
            rw [hco] at hli
            obtain ⟨-, h2⟩ := Prod.mk.injEq .. ▸ Except.ok.inj hli
            exact h2.symm

/-- C8 (amended): a completing `run_data` call never rebinds the
caller's top-level fields other than `line_items`; but when
`line_items` holds a list, the caller's items are coerced in place
(through the shared list object) and the normalized record shares the
resulting list with the caller instead of being a fresh copy. -/
theorem run_data_mutates_only_line_items (today : Date) (data : JObj)
    (v : Verdict) (c : JObj) (h : run_data today data = .ok (v, c)) :
    (∀ k, k ≠ "line_items" → JObj.get? c k = JObj.get? data k)
    ∧ (JObj.get? data "line_items" = none → c = data)
    ∧ (∀ xs, JObj.get? data "line_items" = some (.arr xs) →
        ∃ n xs2, coerceItems xs = .ok xs2
          ∧ c = JObj.set data "line_items" (.arr xs2)
          ∧ v.normalized_data = some n
          ∧ JObj.get? n "line_items" = some (.arr xs2))
    ∧ (∀ w, JObj.get? data "line_items" = some w → (∀ xs, w ≠ .arr xs) →
        c = data) := by
  obtain ⟨n, hn, hcase⟩ := run_data_cases today data v c h
  obtain ⟨hnone, hsome, hother⟩ := normalize_caller data n c hn
  have hnd : v.normalized_data = some n := by
    rcases hcase with ⟨-, rfl⟩ | ⟨-, -, rfl⟩ | ⟨-, -, rfl⟩ <;> rfl
  refine ⟨?_, hnone, ?_, hother⟩
  · intro k hk
    cases h0 : JObj.get? data "line_items" with
    | none => rw [hnone h0]
    | some w =>
        cases w with
        | arr xs =>
            obtain ⟨xs2, -, rfl, -⟩ := hsome xs h0
            exact JObj.get?_set_ne data "line_items" k _ hk
        | null => rw [hother _ h0 (fun xs => by simp)]
        | bool b => rw [hother _ h0 (fun xs => by simp)]
        | num q => rw [hother _ h0 (fun xs => by simp)]
        | str s => rw [hother _ h0 (fun xs => by simp)]
        | obj kvs => rw [hother _ h0 (fun xs => by simp)]
  · intro xs h0
    obtain ⟨xs2, hco, hc, hnli⟩ := hsome xs h0
    exact ⟨n, xs2, hco, hc, hnd, hnli⟩

/-- A candidate whose line-item numeric fields are numeric strings (the
spec's round-trip coercion scenario). -/
def strQtyInvoice : JObj :=
  [("invoice_number", .str "INV-001"), ("date", .str "2024-01-01"),
   ("vendor", .str "Acme"),
   ("line_items", .arr [.obj [("description", .str "W"), ("quantity", .str "2"),
     ("unit_price", .str "5"), ("total", .str "10")]]),
   ("subtotal", .str "10"), ("tax", .num 1), ("total", .num 11)]

/-- The caller-visible state of `strQtyInvoice` after `run_data`: the
line item's `quantity`, `unit_price` and `total` have been replaced by
floats in place, while the top-level `subtotal` string is untouched. -/
def strQtyAfter : JObj :=
  [("invoice_number", .str "INV-001"), ("date", .str "2024-01-01"),
   ("vendor", .str "Acme"),
   ("line_items", .arr [.obj [("description", .str "W"), ("quantity", .num 2),
     ("unit_price", .num 5), ("total", .num 10)]]),
   ("subtotal", .str "10"), ("tax", .num 1), ("total", .num 11)]

/-- The fully normalized record derived from `strQtyInvoice`. -/
def strQtyNorm : JObj :=
  [("invoice_number", .str "INV-001"), ("date", .str "2024-01-01"),
   ("vendor", .str "Acme"),
   ("line_items", .arr [.obj [("description", .str "W"), ("quantity", .num 2),
     ("unit_price", .num 5), ("total", .num 10)]]),
   ("subtotal", .num 10), ("tax", .num 1), ("total", .num 11)]

/-- C8 counterexample: after a successful `run_data` call the caller's
record is *not* unchanged — the line item that held the string `"2"`
now holds the float `2.0` (the shallow `data.copy()` shares the
`line_items` list, whose item dicts are coerced in place). -/
theorem run_data_mutates_caller :
    run_data today0 strQtyInvoice =
      .ok (⟨"success", true, [], [], [], [], some strQtyNorm⟩, strQtyAfter)
    ∧ strQtyAfter ≠ strQtyInvoice :=
  ⟨by rfl, by decide⟩

/-- Witness for the amended C8 at `strQtyInvoice`: only the
`line_items` entry of the caller's record is rebound, and the verdict's
normalized record shares the mutated item list. -/
theorem run_data_mutates_only_line_items_witness :
    (∀ k, k ≠ "line_items" →
      JObj.get? strQtyAfter k = JObj.get? strQtyInvoice k)
    ∧ (JObj.get? strQtyInvoice "line_items" = none →
        strQtyAfter = strQtyInvoice)
    ∧ (∀ xs, JObj.get? strQtyInvoice "line_items" = some (.arr xs) →
        ∃ n xs2, coerceItems xs = .ok xs2
          ∧ strQtyAfter = JObj.set strQtyInvoice "line_items" (.arr xs2)
          ∧ (Verdict.normalized_data
              ⟨"success", true, [], [], [], [], some strQtyNorm⟩) = some n
          ∧ JObj.get? n "line_items" = some (.arr xs2))
    ∧ (∀ w, JObj.get? strQtyInvoice "line_items" = some w →
        (∀ xs, w ≠ .arr xs) → strQtyAfter = strQtyInvoice) :=
  run_data_mutates_only_line_items today0 strQtyInvoice
    ⟨"success", true, [], [], [], [], some strQtyNorm⟩ strQtyAfter (by rfl)

/-! ### C9 — idempotence of the pipeline on the mutated record

The second `run_data` call on "the same record" sees the caller's
record as the first call left it (line items coerced in place).  The
key fact is that `normalize` is stable: it maps that record back to
the same normalized output and leaves it unchanged. -/

/-- Equation: the date step when `date` is absent. -/
theorem normDate_eq_none (d : JObj) (h : JObj.get? d "date" = none) :
    normDate d = d := by
  unfold normDate
  rw [h]

/-- Equation: the date step on a parsable date value. -/
theorem normDate_eq_parse (d : JObj) (v : JVal) (dt : Date)
    (h : JObj.get? d "date" = some v)
    (hp : parseISODate (replaceSlashes (pyStr v)) = some dt) :
    normDate d = d.set "date" (.str (formatDate dt)) := by
  unfold normDate
  rw [h]
  show (match parseISODate (replaceSlashes (pyStr v)) with
        | some dt => d.set "date" (.str (formatDate dt))
        | none => d) = d.set "date" (.str (formatDate dt))
  rw [hp]

/-- Equation: the date step on an unparsable date value. -/
theorem normDate_eq_noparse (d : JObj) (v : JVal)
    (h : JObj.get? d "date" = some v)
    (hp : parseISODate (replaceSlashes (pyStr v)) = none) :
    normDate d = d := by
  unfold normDate
  rw [h]
  show (match parseISODate (replaceSlashes (pyStr v)) with
        | some dt => d.set "date" (.str (formatDate dt))
        | none => d) = d
  rw [hp]

/-- Equation: the vendor step on a string vendor. -/
theorem normVendor_eq_str (d : JObj) (s : String)
    (h : JObj.get? d "vendor" = some (.str s)) :
    normVendor d = d.set "vendor" (.str (pyStrip s)) := by
  unfold normVendor
  rw [h]

/-- Equation: the vendor step when `vendor` is absent. -/
theorem normVendor_eq_none (d : JObj) (h : JObj.get? d "vendor" = none) :
    normVendor d = d := by
  unfold normVendor
  rw [h]

/-- Equation: the vendor step on a non-string vendor. -/
theorem normVendor_eq_nonstr (d : JObj) (v : JVal)
    (h : JObj.get? d "vendor" = some v) (hv : ∀ s, v ≠ .str s) :
    normVendor d = d := by
  unfold normVendor
  rw [h]
  cases v with
  | str s => exact absurd rfl (hv s)
  | null => rfl
  | bool b => rfl
  | num q => rfl
  | arr xs => rfl
  | obj kvs => rfl

/-- Assembling a `normalize` run from its two fallible stages. -/
theorem normalize_build (x nli c2 n4 : JObj)
    (h1 : normLineItems (normVendor (normDate x)) x = .ok (nli, c2))
    (h2 : normTopFloats ["subtotal", "tax", "total"] nli = .ok n4) :
    normalize x = .ok (n4, c2) := by
  simp [normalize, h1, h2, Except.bind, bind, Except.instMonad, pure, Except.pure]

/-- A successful field-coercion pass keeps a non-dict item unchanged
(nothing can be assigned into it). -/
theorem coerceItemFields_nonobj :
    ∀ (fs : List String) (item item2 : JVal), (∀ kvs, item ≠ .obj kvs) →
      coerceItemFields fs item = .ok item2 → item2 = item := by
  intro fs
  induction fs with
  | nil =>
      intro item item2 _ h
      simp only [coerceItemFields] at h
      exact (Except.ok.inj h).symm
  | cons f rest ih =>
      intro item item2 hno h
      simp only [coerceItemFields] at h
      cases item with
      | obj kvs => exact absurd rfl (hno kvs)
      | null => simp [pyContains, Except.bind, bind, Except.instMonad] at h
      | bool b => simp [pyContains, Except.bind, bind, Except.instMonad] at h
      | num q => simp [pyContains, Except.bind, bind, Except.instMonad] at h
      | str s =>
          simp only [pyContains, Except.bind, bind, Except.instMonad] at h
          by_cases hc : containsSub f.toList s.toList
          · rw [if_pos hc] at h
            simp [pyGetItem, Except.bind, bind, Except.instMonad] at h
          · rw [if_neg hc] at h
            exact ih _ item2 hno h
      | arr xs =>
          simp only [pyContains, Except.bind, bind, Except.instMonad] at h
          by_cases hc : xs.contains (.str f)
          · rw [if_pos hc] at h
            simp [pyGetItem, Except.bind, bind, Except.instMonad] at h
          · rw [if_neg hc] at h
            exact ih _ item2 hno h

/-- A successful field-coercion pass on a dict yields a dict. -/
theorem coerceItemFields_obj_shape :
    ∀ (fs : List String) (kvs : JObj) (item2 : JVal),
      coerceItemFields fs (.obj kvs) = .ok item2 → ∃ kvs2, item2 = .obj kvs2 := by
  intro fs
  induction fs with
  | nil =>
      intro kvs item2 h
      simp only [coerceItemFields] at h
      exact ⟨kvs, (Except.ok.inj h).symm⟩
  | cons f rest ih =>
      intro kvs item2 h
      simp only [coerceItemFields, pyContains, Except.bind, bind,
        Except.instMonad] at h
      by_cases hc : JObj.hasKey kvs f
      · rw [if_pos hc] at h
        rw [JObj.hasKey, Option.isSome_iff_exists] at hc
        obtain ⟨v, hv⟩ := hc
        rw [pyGetItem] at h
        rw [hv] at h
        simp only [Except.bind, bind, Except.instMonad] at h
        cases hq : pyFloat v with
        | error e =>
            rw [hq] at h
            exact Except.noConfusion h
        | ok q =>
            rw [hq] at h
            simp only [pySetItem, Except.bind, bind, Except.instMonad] at h
            exact ih _ item2 h
      · rw [if_neg hc] at h
        exact ih kvs item2 h

/-- A successful field-coercion pass on a dict only rebinds the listed
fields. -/
theorem coerceItemFields_obj_get?_ne :
    ∀ (fs : List String) (kvs kvs2 : JObj),
      coerceItemFields fs (.obj kvs) = .ok (.obj kvs2) →
      ∀ f, f ∉ fs → JObj.get? kvs2 f = JObj.get? kvs f := by
  intro fs
  induction fs with
  | nil =>
      intro kvs kvs2 h f _
      simp only [coerceItemFields] at h
      rw [JVal.obj.inj (Except.ok.inj h)]
  | cons g rest ih =>
      intro kvs kvs2 h f hf
      rw [List.mem_cons, not_or] at hf
      simp only [coerceItemFields, pyContains, Except.bind, bind,
        Except.instMonad] at h
      by_cases hc : JObj.hasKey kvs g
      · rw [if_pos hc] at h
        rw [JObj.hasKey, Option.isSome_iff_exists] at hc
        obtain ⟨v, hv⟩ := hc
        rw [pyGetItem] at h
        rw [hv] at h
        simp only [Except.bind, bind, Except.instMonad] at h
        cases hq : pyFloat v with
        | error e =>
            rw [hq] at h
            exact Except.noConfusion h
        | ok q =>
            rw [hq] at h
            simp only [pySetItem, Except.bind, bind, Except.instMonad] at h
            rw [ih _ kvs2 h f hf.2]
            exact JObj.get?_set_ne kvs g f _ hf.1
      · rw [if_neg hc] at h
        exact ih kvs kvs2 h f hf.2

/-- Re-running the field-coercion pass on its own output is the
identity: each listed field already holds the float it was coerced to,
and `float` of a float is that float. -/
theorem coerceItemFields_obj_idem :
    ∀ (fs : List String) (kvs kvs2 : JObj), fs.Nodup →
      coerceItemFields fs (.obj kvs) = .ok (.obj kvs2) →
      coerceItemFields fs (.obj kvs2) = .ok (.obj kvs2) := by
  intro fs
  induction fs with
  | nil =>
      intro kvs kvs2 _ h
      simp only [coerceItemFields] at h ⊢
  | cons f rest ih =>
      intro kvs kvs2 hnd h
      rw [List.nodup_cons] at hnd
      simp only [coerceItemFields, pyContains, Except.bind, bind,
        Except.instMonad] at h ⊢
      by_cases hc : JObj.hasKey kvs f
      · rw [if_pos hc] at h
        have hc' := hc
        rw [JObj.hasKey, Option.isSome_iff_exists] at hc'
        obtain ⟨v, hv⟩ := hc'
        rw [pyGetItem] at h
        rw [hv] at h
        simp only [Except.bind, bind, Except.instMonad] at h
        cases hq : pyFloat v with
        | error e =>
            rw [hq] at h
            exact Except.noConfusion h
        | ok q =>
            rw [hq] at h
            simp only [pySetItem, Except.bind, bind, Except.instMonad] at h
            have hget2 : JObj.get? kvs2 f = some (.num q) := by
              rw [coerceItemFields_obj_get?_ne rest _ kvs2 h f hnd.1]
              exact JObj.get?_set_self kvs f (.num q)
            have hk2 : JObj.hasKey kvs2 f := by
              rw [JObj.hasKey, hget2]
              rfl
            rw [if_pos hk2, pyGetItem]
            rw [hget2]
            simp only [pyFloat, pySetItem, Except.bind, bind, Except.instMonad]
            rw [JObj.set_same_of_get? kvs2 f (.num q) hget2]
            exact ih _ kvs2 hnd.2 h
      · rw [if_neg hc] at h
        have hg : JObj.get? kvs2 f = JObj.get? kvs f :=
          coerceItemFields_obj_get?_ne rest kvs kvs2 h f hnd.1
        have hc2 : ¬ JObj.hasKey kvs2 f = true := by
          rw [JObj.hasKey, hg]
          exact hc
        rw [if_neg hc2]
        exact ih kvs kvs2 hnd.2 h

/-- Re-running the whole item-coercion loop on its own output is the
identity. -/
theorem coerceItems_idem :
    ∀ (xs xs2 : List JVal), coerceItems xs = .ok xs2 →
      coerceItems xs2 = .ok xs2 := by
  intro xs
  induction xs with
  | nil =>
      intro xs2 h
      simp only [coerceItems] at h
      rw [← Except.ok.inj h]
      rfl
  | cons x rest ih =>
      intro xs2 h
      simp only [coerceItems, Except.bind, bind, Except.instMonad] at h
      cases hx : coerceItemFields numericFields x with
      | error e =>
          rw [hx] at h
          exact Except.noConfusion h
      | ok x2 =>
          rw [hx] at h
          cases hr : coerceItems rest with
          | error e =>
              rw [hr] at h
              simp only [pure, Except.pure] at h
              exact Except.noConfusion h
          | ok rest2 =>
              rw [hr] at h
              simp only [pure, Except.pure] at h
              have hx2 : coerceItemFields numericFields x2 = .ok x2 := by
                cases x with
                | obj kvs =>
                    obtain ⟨kvs2, rfl⟩ := coerceItemFields_obj_shape _ kvs x2 hx
                    exact coerceItemFields_obj_idem numericFields kvs kvs2
                      (by decide) hx
                | null =>
                    have he := coerceItemFields_nonobj _ _ x2 (fun kvs => by simp) hx
                    subst he
                    exact hx
                | bool b =>
                    have he := coerceItemFields_nonobj _ _ x2 (fun kvs => by simp) hx
                    subst he
                    exact hx
                | num q =>
                    have he := coerceItemFields_nonobj _ _ x2 (fun kvs => by simp) hx
                    subst he
                    exact hx
                | str s =>
                    have he := coerceItemFields_nonobj _ _ x2 (fun kvs => by simp) hx
                    subst he
                    exact hx
                | arr ys =>
                    have he := coerceItemFields_nonobj _ _ x2 (fun kvs => by simp) hx
                    subst he
                    exact hx
          -- assemble
              have := Except.ok.inj h
              rw [← this]
              simp only [coerceItems, Except.bind, bind, Except.instMonad, hx2,
                ih rest2 hr, pure, Except.pure]

/-- `normalize` is stable: re-normalizing the caller-visible record
that a successful run leaves behind reproduces the same normalized
output and leaves the record unchanged (the mutated line items already
hold floats, and the caller's top-level fields were never rebound). -/
theorem normalize_stable (data n c : JObj) (hn : normalize data = .ok (n, c)) :
    normalize c = .ok (n, c) := by
  obtain ⟨hnone, -, hother⟩ := normalize_caller data n c hn
  obtain ⟨nli, hli, htf⟩ := normalize_parts data n c hn
  have hpre : JObj.get? (normVendor (normDate data)) "line_items" =
      JObj.get? data "line_items" := by
    rw [normVendor_get?_ne _ _ (by decide), normDate_get?_ne _ _ (by decide)]
  cases h0 : JObj.get? data "line_items" with
  | none =>
      have hcd := hnone h0
      rw [hcd] at hn ⊢
      exact hn
  | some w =>
      cases w with
      | null =>
          have hcd := hother _ h0 (fun xs => by simp)
          rw [hcd] at hn ⊢
          exact hn
      | bool b =>
          have hcd := hother _ h0 (fun xs => by simp)
          rw [hcd] at hn ⊢
          exact hn
      | num q =>
          have hcd := hother _ h0 (fun xs => by simp)
          rw [hcd] at hn ⊢
          exact hn
      | str s =>
          have hcd := hother _ h0 (fun xs => by simp)
          rw [hcd] at hn ⊢
          exact hn
      | obj kvs =>
          have hcd := hother _ h0 (fun xs => by simp)
          rw [hcd] at hn ⊢
          exact hn
      | arr xs =>
          rw [normLineItems_eq_arr _ data xs (hpre.trans h0)] at hli
          cases hco : coerceItems xs with
          | error e =>
              rw [hco] at hli
              simp only [Except.bind, bind, Except.instMonad] at hli
              exact Except.noConfusion hli
          | ok xs2 =>
              rw [hco] at hli
              simp only [Except.bind, bind, Except.instMonad] at hli
              obtain ⟨h1, h2⟩ := Prod.mk.injEq .. ▸ Except.ok.inj hli
              have hkli : JObj.hasKey data "line_items" := by
                rw [JObj.hasKey, h0]
                rfl
              have hdate_c : JObj.get? c "date" = JObj.get? data "date" := by
                rw [← h2]
                exact JObj.get?_set_ne data "line_items" "date" _ (by decide)
              have hD : normDate c = (normDate data).set "line_items" (.arr xs2) := by
                cases hd : JObj.get? data "date" with
                | none =>
                    rw [normDate_eq_none c (hdate_c.trans hd),
                      normDate_eq_none data hd, ← h2]
                | some v =>
                    cases hp : parseISODate (replaceSlashes (pyStr v)) with
                    | some dt =>
                        rw [normDate_eq_parse c v dt (hdate_c.trans hd) hp,
                          normDate_eq_parse data v dt hd hp, ← h2]
                        exact JObj.set_comm_left data "line_items" "date" _ _
                          hkli (by decide)
                    | none =>
                        rw [normDate_eq_noparse c v (hdate_c.trans hd) hp,
                          normDate_eq_noparse data v hd hp, ← h2]
              have hkli1 : JObj.hasKey (normDate data) "line_items" := by
                rw [JObj.hasKey, normDate_get?_ne data _ (by decide), h0]
                rfl
              have hvend_c : JObj.get? (normDate c) "vendor" =
                  JObj.get? (normDate data) "vendor" := by
                rw [hD]
                exact JObj.get?_set_ne (normDate data) "line_items" "vendor" _
                  (by decide)
              have hV : normVendor (normDate c) =
                  (normVendor (normDate data)).set "line_items" (.arr xs2) := by
                cases hv : JObj.get? (normDate data) "vendor" with
                | none =>
                    rw [normVendor_eq_none _ (hvend_c.trans hv),
                      normVendor_eq_none _ hv, hD]
                | some v =>
                    cases v with
                    | str s =>
                        rw [normVendor_eq_str _ s (hvend_c.trans hv),
                          normVendor_eq_str _ s hv, hD]
                        exact JObj.set_comm_left (normDate data) "line_items"
                          "vendor" _ _ hkli1 (by decide)
                    | null =>
                        rw [normVendor_eq_nonstr _ _ (hvend_c.trans hv)
                            (fun s => by simp),
                          normVendor_eq_nonstr _ _ hv (fun s => by simp), hD]
                    | bool b =>
                        rw [normVendor_eq_nonstr _ _ (hvend_c.trans hv)
                            (fun s => by simp),
                          normVendor_eq_nonstr _ _ hv (fun s => by simp), hD]
                    | num q =>
                        rw [normVendor_eq_nonstr _ _ (hvend_c.trans hv)
                            (fun s => by simp),
                          normVendor_eq_nonstr _ _ hv (fun s => by simp), hD]
                    | arr ys =>
                        rw [normVendor_eq_nonstr _ _ (hvend_c.trans hv)
                            (fun s => by simp),
                          normVendor_eq_nonstr _ _ hv (fun s => by simp), hD]
                    | obj kvs2 =>
                        rw [normVendor_eq_nonstr _ _ (hvend_c.trans hv)
                            (fun s => by simp),
                          normVendor_eq_nonstr _ _ hv (fun s => by simp), hD]
              have hc_li : JObj.get? (normVendor (normDate c)) "line_items" =
                  some (.arr xs2) := by
                rw [hV]
                exact JObj.get?_set_self _ _ _
              have e1 : (normVendor (normDate c)).set "line_items" (.arr xs2) = nli := by
                rw [hV, JObj.set_set_same]
                exact h1
              have e2 : c.set "line_items" (.arr xs2) = c := by
                rw [← h2, JObj.set_set_same]
              have hL : normLineItems (normVendor (normDate c)) c = .ok (nli, c) := by
                rw [normLineItems_eq_arr _ c xs2 hc_li, coerceItems_idem xs xs2 hco]
                simp only [Except.bind, bind, Except.instMonad]
                rw [e1, e2]
              exact normalize_build c nli c n hL htf

/-- C9: with the current date held fixed, a second `run_data` call on
the same (by then in-place-mutated) record returns the very same
Verdict — and leaves the record unchanged. -/
theorem run_data_idempotent (today : Date) (data : JObj) (v : Verdict)
    (c : JObj) (h : run_data today data = .ok (v, c)) :
    run_data today c = .ok (v, c) := by
  obtain ⟨n, hn, hcase⟩ := run_data_cases today data v c h
  have hst := normalize_stable data n c hn
  rcases hcase with ⟨hs, rfl⟩ | ⟨hs, hd, rfl⟩ | ⟨hs, hd, rfl⟩
  · simp only [run_data, hst, Except.bind, bind, Except.instMonad, pure,
      Except.pure]
    rw [if_pos hs]
  · simp only [run_data, hst, Except.bind, bind, Except.instMonad, pure,
      Except.pure]
    rw [if_neg (not_ne_iff.mpr hs), if_pos hd]
  · simp only [run_data, hst, Except.bind, bind, Except.instMonad, pure,
      Except.pure]
    rw [if_neg (not_ne_iff.mpr hs), if_neg (not_ne_iff.mpr hd)]

/-- Witness for C9: the second run on the record left behind by
validating `strQtyInvoice` returns the identical Verdict. -/
theorem run_data_idempotent_witness :
    run_data today0 strQtyAfter =
      .ok (⟨"success", true, [], [], [], [], some strQtyNorm⟩, strQtyAfter) :=
  run_data_idempotent today0 strQtyInvoice
    ⟨"success", true, [], [], [], [], some strQtyNorm⟩ strQtyAfter (by rfl)

/-! ### C10 — the messaging boundary, corrected -/

/-- The body of a request that *does* carry an invoice key, holding an
empty dict (present but falsy). -/
def emptyInvoiceBody : JObj := [("invoice", .obj [])]

/-- A `validate.invoice` request whose invoice payload is present but
empty. -/
def emptyInvoiceMsg : JObj :=
  [("type", .str "validate.invoice"), ("id", .str "m1"),
   ("from", .str "client"), ("body", .obj emptyInvoiceBody)]

/-- C10 counterexample: the claim says the failure envelope is returned
*exactly when* the invoice is absent (or the type unrecognized); but on
a request whose invoice key is present and holds an empty dict —
`not invoice` is true for any falsy value —
`handle_message` still returns the failure envelope instead of calling
the pipeline. -/
theorem handle_message_fails_on_present_empty_invoice :
    handle_message today0 "gen-1" emptyInvoiceMsg =
      .ok ⟨"resp-m1", "validate.invoice.response", "validator-agent",
           .str "client", .failBody "Missing invoice payload"⟩
    ∧ JObj.get? emptyInvoiceBody "invoice" = some (.obj []) :=
  ⟨by rfl, by rfl⟩

/-- C10 (amended): `handle_message` returns the failure envelope when
the message type is not `validate.invoice` or when the invoice payload
is absent **or falsy** (such as an empty dict); for a truthy dict
payload it runs the pipeline and wraps its Verdict in a response whose
id prepends `resp-` to the request id, whose recipient is the request's
sender, and whose body is the Verdict. -/
theorem handle_message_spec (today : Date) (genId : String) (message : JObj) :
    (JObj.get? message "type" ≠ some (.str "validate.invoice") →
      handle_message today genId message =
        .ok ⟨"resp-" ++ pyStr (JObj.getD message "id" (.str genId)),
             pyStrOpt (JObj.get? message "type") ++ ".response",
             "validator-agent", JObj.getD message "from" (.str "unknown"),
             .failBody ("Unsupported type " ++ pyStrOpt (JObj.get? message "type"))⟩)
    ∧ (∀ bk, JObj.get? message "type" = some (.str "validate.invoice") →
        JObj.getD message "body" (.obj []) = .obj bk →
        ¬ pyTruthy (JObj.getD bk "invoice" .null) →
        handle_message today genId message =
          .ok ⟨"resp-" ++ pyStr (JObj.getD message "id" (.str genId)),
               "validate.invoice.response", "validator-agent",
               JObj.getD message "from" (.str "unknown"),
               .failBody "Missing invoice payload"⟩)
    ∧ (∀ bk inv v c, JObj.get? message "type" = some (.str "validate.invoice") →
        JObj.getD message "body" (.obj []) = .obj bk →
        JObj.get? bk "invoice" = some (.obj inv) →
        pyTruthy (.obj inv) →
        run_data today inv = .ok (v, c) →
        handle_message today genId message =
          .ok ⟨"resp-" ++ pyStr (JObj.getD message "id" (.str genId)),
               "validate.invoice.response", "validator-agent",
               JObj.getD message "from" (.str "unknown"),
               .verdictBody v⟩) := by
  refine ⟨?_, ?_, ?_⟩
  · intro hne
    simp only [handle_message]
    rw [if_neg hne]
  · intro bk ht hb hfalsy
    simp only [handle_message]
    rw [if_pos ht]
    simp only [hb]
    rw [if_pos hfalsy, ht]
    rfl
  · intro bk inv v c ht hb hinv htruthy hrun
    simp only [handle_message]
    rw [if_pos ht]
    have hgd : JObj.getD bk "invoice" .null = .obj inv := by
      rw [JObj.getD, hinv]
      rfl
    simp only [hb, hgd]
    rw [if_neg (by simpa using htruthy)]
    simp only [hrun, Except.bind, bind, Except.instMonad]
    rw [ht]
    rfl

/-- An unrecognized request type. -/
def pingMsg : JObj :=
  [("type", .str "ping"), ("id", .str "m1"), ("from", .str "client")]

/-- A well-formed validation request around `goodInvoice`. -/
def goodMsg : JObj :=
  [("type", .str "validate.invoice"), ("id", .str "m2"),
   ("from", .str "client"), ("body", .obj [("invoice", .obj goodInvoice)])]

/-- Witness for the amended C10: the unsupported-type failure, the
missing-payload failure, and the wrapped Verdict, each at a concrete
request. -/
theorem handle_message_spec_witness :
    handle_message today0 "gen-1" pingMsg =
      .ok ⟨"resp-m1", "ping.response", "validator-agent", .str "client",
           .failBody "Unsupported type ping"⟩
    ∧ handle_message today0 "gen-1" emptyInvoiceMsg =
        .ok ⟨"resp-m1", "validate.invoice.response", "validator-agent",
             .str "client", .failBody "Missing invoice payload"⟩
    ∧ handle_message today0 "gen-1" goodMsg =
        .ok ⟨"resp-m2", "validate.invoice.response", "validator-agent",
             .str "client", .verdictBody goodVerdict⟩ :=
  ⟨(handle_message_spec today0 "gen-1" pingMsg).1 (by decide),
   (handle_message_spec today0 "gen-1" emptyInvoiceMsg).2.1 emptyInvoiceBody
     rfl rfl (by decide),
   (handle_message_spec today0 "gen-1" goodMsg).2.2 [("invoice", .obj goodInvoice)]
     goodInvoice goodVerdict goodInvoice rfl rfl rfl (by decide) (by rfl)⟩

end InvoiceValidator
